import Mathlib

/-!
Verification of the bulk video generation orchestrator
(token pool, submission queue, polling coordinator, plan enforcement).

The definitions below are a shallow embedding of the TypeScript source:
`server/planEnforcement.ts`, `server/storage.ts`, `server/bulkQueue.ts`,
`server/pollingCoordinator.ts`, `server/db.ts` (withRetry) and the HTTP
route handlers.  Time is modelled as a natural number of milliseconds,
database tables as lists of rows, and the in-memory maps as association
lists.  Each stateful method becomes a pure function from state to state.
-/

namespace VeoCore

/-! ## Plan enforcement (server/planEnforcement.ts) -/

/-- The tools gated by plans (`AllowedTool` in the source). -/
inductive Tool where
  | veo
  | bulk
  | script
  | textToImage
  | imageToVideo
deriving DecidableEq, Repr

/-- One entry of `PLAN_CONFIGS`. -/
structure PlanConfig where
  name : String
  dailyVideoLimit : Nat
  allowedTools : List Tool
  maxBatch : Nat
  delaySeconds : Nat
  maxPrompts : Nat
deriving DecidableEq, Repr

/-- `PLAN_CONFIGS` keyed by the plan-type string; unknown keys give
`none`, as indexing `PLAN_CONFIGS[user.planType]` does in the source. -/
def PLAN_CONFIGS (planType : String) : Option PlanConfig :=
  if planType = "free" then
    some { name := "Free", dailyVideoLimit := 0, allowedTools := [Tool.veo],
           maxBatch := 0, delaySeconds := 0, maxPrompts := 0 }
  else if planType = "scale" then
    some { name := "Scale", dailyVideoLimit := 1000,
           allowedTools := [Tool.veo, Tool.bulk],
           maxBatch := 7, delaySeconds := 30, maxPrompts := 50 }
  else if planType = "empire" then
    some { name := "Empire", dailyVideoLimit := 2000,
           allowedTools := [Tool.veo, Tool.bulk, Tool.script,
                            Tool.textToImage, Tool.imageToVideo],
           maxBatch := 10, delaySeconds := 10, maxPrompts := 100 }
  else none

/-- The fields of a `User` row the plan enforcer reads.  Timestamps are
milliseconds; `planExpiry` is nullable. -/
structure User where
  isAdmin : Bool
  planType : String
  planExpiry : Option Nat
  dailyVideoCount : Nat
deriving DecidableEq, Repr

/-- Result record `{allowed, reason?, remainingVideos?}` of every plan
check (`PlanCheckResult` in the source). -/
structure PlanCheckResult where
  allowed : Bool
  reason : Option String := none
  remainingVideos : Option Nat := none
deriving DecidableEq, Repr

/-- `isPlanExpired(user)`: admin and free never expire; otherwise expired
iff a `planExpiry` is set and `now > planExpiry`. -/
def isPlanExpired (now : Nat) (u : User) : Bool :=
  if u.isAdmin then false
  else if u.planType = "free" then false
  else match u.planExpiry with
    | some expiry => decide (now > expiry)
    | none => false

/-- `getRemainingVideos(user)` for a non-admin user:
`max(0, dailyVideoLimit - dailyVideoCount)` (truncated subtraction), and
`0` for an unknown plan type.  The admin branch of the source returns
`Infinity` and is never consulted by `canBulkGenerate`, which returns
before calling this for admins; we model the non-admin computation. -/
def getRemainingVideos (u : User) : Nat :=
  match PLAN_CONFIGS u.planType with
  | none => 0
  | some config => config.dailyVideoLimit - u.dailyVideoCount

/-- `canAccessTool(user, tool)`. -/
def canAccessTool (now : Nat) (u : User) (tool : Tool) : PlanCheckResult :=
  if u.isAdmin then { allowed := true }
  else if isPlanExpired now u then
    { allowed := false,
      reason := some "Your plan has expired. Please contact admin to renew." }
  else match PLAN_CONFIGS u.planType with
    | none =>
      { allowed := false,
        reason := some "Invalid plan type. Please contact admin." }
    | some config =>
      if tool ∈ config.allowedTools then { allowed := true }
      else
        { allowed := false,
          reason := some ("This tool is not available on your " ++ config.name
            ++ " plan. Please upgrade to access this feature.") }

/-- `canBulkGenerate(user, videoCount)`: admin bypass, then the `bulk`
tool check, then the `maxPrompts` check, then the remaining-daily-quota
check.  The unknown-plan branch after a passed tool check is unreachable
(the tool check already denied unknown plans); the source would throw
there reading `config.bulkGeneration`, we return a denial. -/
def canBulkGenerate (now : Nat) (u : User) (videoCount : Nat) : PlanCheckResult :=
  if u.isAdmin then { allowed := true }
  else
    let toolCheck := canAccessTool now u Tool.bulk
    if !toolCheck.allowed then toolCheck
    else match PLAN_CONFIGS u.planType with
      | none => { allowed := false, reason := some "unreachable" }
      | some config =>
        if videoCount > config.maxPrompts then
          { allowed := false,
            reason := some ("Your " ++ config.name
              ++ " plan allows a maximum of " ++ toString config.maxPrompts
              ++ " prompts in total. Please reduce the number of prompts.") }
        else
          let remaining := getRemainingVideos u
          if videoCount > remaining then
            { allowed := false,
              reason := some ("You have " ++ toString remaining
                ++ " videos remaining today. Cannot generate "
                ++ toString videoCount ++ " videos.") }
          else
            { allowed := true, remainingVideos := some remaining }

/-! ## Video history rows (storage in shared/schema + server/storage.ts) -/

/-- A `video_history` row.  Ids are opaque; we use naturals.  `updatedAt`
and `createdAt` are milliseconds.  `aspect` is the `aspectRatio` column. -/
structure VideoRow where
  id : Nat
  userId : Nat
  prompt : String
  aspect : String
  status : String
  videoUrl : Option String
  errorMessage : Option String
  retryCount : Nat
  tokenUsed : Option Nat
  createdAt : Nat
  updatedAt : Nat
deriving DecidableEq, Repr

/-- JS truthiness of an optional string argument: `if (videoUrl)` is
false for `undefined` and for the empty string. -/
def truthyStr : Option String → Bool
  | none => false
  | some s => s ≠ ""

/-- `updateVideoHistoryStatus(videoId, userId, status, videoUrl?, errorMessage?)`:
builds `updateData` with `status` and a server-set `updatedAt`, adds
`videoUrl` / `errorMessage` only when truthy, and applies it to the rows
matching both `id` and `userId`.  Returns the first updated row and the
new table. -/
def updateVideoHistoryStatus (now : Nat) (rows : List VideoRow)
    (videoId userId : Nat) (status : String)
    (videoUrl errorMessage : Option String) :
    Option VideoRow × List VideoRow :=
  let apply := fun (r : VideoRow) =>
    { r with
      status := status
      updatedAt := now
      videoUrl := if truthyStr videoUrl then videoUrl else r.videoUrl
      errorMessage := if truthyStr errorMessage then errorMessage else r.errorMessage }
  let rows2 := rows.map fun r =>
    if r.id = videoId ∧ r.userId = userId then apply r else r
  ((rows2.filter fun r => r.id = videoId && r.userId = userId).head?, rows2)

/-- A partial update passed to `updateVideoHistoryFields`; `none` means
the field is absent from the patch. -/
structure VideoFieldPatch where
  status : Option String := none
  videoUrl : Option String := none
  errorMessage : Option String := none
  retryCount : Option Nat := none
  tokenUsed : Option (Option Nat) := none
deriving DecidableEq, Repr

/-- Applying a field patch to one row; `updatedAt` is always server-set. -/
def applyPatch (now : Nat) (p : VideoFieldPatch) (r : VideoRow) : VideoRow :=
  { r with
    status := p.status.getD r.status
    videoUrl := match p.videoUrl with | some u => some u | none => r.videoUrl
    errorMessage := match p.errorMessage with | some m => some m | none => r.errorMessage
    retryCount := p.retryCount.getD r.retryCount
    tokenUsed := p.tokenUsed.getD r.tokenUsed
    updatedAt := now }

/-- `updateVideoHistoryFields(videoId, userId?, fields)`: update the rows
matching `id` (and `userId` when one is given), setting `updatedAt`
server-side; returns the first updated row and the new table. -/
def updateVideoHistoryFields (now : Nat) (rows : List VideoRow)
    (videoId : Nat) (userId : Option Nat) (p : VideoFieldPatch) :
    Option VideoRow × List VideoRow :=
  let rowMatch := fun (r : VideoRow) =>
    r.id = videoId ∧ (∀ u ∈ userId, r.userId = u)
  let rows2 := rows.map fun r => if rowMatch r then applyPatch now p r else r
  ((rows2.filter fun r => decide (rowMatch r)).head?, rows2)

/-- `getVideoById(videoId)`. -/
def getVideoById (rows : List VideoRow) (videoId : Nat) : Option VideoRow :=
  rows.find? fun r => r.id = videoId

/-! ## Submission queue failure handling (server/bulkQueue.ts) -/

/-- `QueuedVideo` of the bulk queue. -/
structure QueuedVideo where
  videoId : Nat
  prompt : String
  aspect : String
  sceneNumber : Nat
  userId : Nat
deriving DecidableEq, Repr

def MAX_RETRIES : Nat := 2
def RETRY_DELAY_MS : Nat := 10000

/-- The part of the process state `handleVideoFailure` touches: the
durable rows, the re-enqueues scheduled by `setTimeout` (video plus the
delay in ms), and the token ids handed to `storage.recordTokenError`
(whose semantics is modelled with the token pool below). -/
structure QueueEffects where
  rows : List VideoRow
  scheduledRequeues : List (QueuedVideo × Nat)
  tokenErrorsRecorded : List Nat
deriving DecidableEq, Repr

/-- The runtime effect of the two-argument call
`storage.updateVideoHistoryFields(video.videoId, { retryCount, errorMessage })`
in the retry branch of `handleVideoFailure`, against the three-parameter
signature `updateVideoHistoryFields(videoId, userId?, fields)` of the
storage layer: the fields patch binds positionally to `userId` and
`fields` is `undefined`, so the update runs with
`where id = videoId and user_id = <patch object>` and a `set` of only
`updatedAt`.  A user-id column never equals an object, no row matches,
and the table is unchanged — the intended `retryCount` increment and
`"(Retry k/2)"` message are never written. -/
def misboundRetryFieldsUpdate (rows : List VideoRow) (_videoId : Nat) :
    List VideoRow :=
  rows

/-- `handleVideoFailure(video, errorMessage, rotationToken?)`: reads the
durable row's `retryCount`; below `MAX_RETRIES` it attempts to bump the
count and set `errorMessage = "<msg> (Retry k/2)"` — a write that is a
no-op at runtime (see `misboundRetryFieldsUpdate`) — and schedules a
re-enqueue after `RETRY_DELAY_MS`; otherwise it marks the row failed
with a terminal message (that call is well-formed).  In both branches a
token error is recorded when a token was used. -/
def handleVideoFailure (now : Nat) (st : QueueEffects)
    (video : QueuedVideo) (errorMessage : String)
    (rotationToken : Option Nat) : QueueEffects :=
  match getVideoById st.rows video.videoId with
  | none => st
  | some videoRecord =>
    let currentRetries := videoRecord.retryCount
    let st1 :=
      if currentRetries < MAX_RETRIES then
        { st with
          rows := misboundRetryFieldsUpdate st.rows video.videoId
          scheduledRequeues := st.scheduledRequeues ++ [(video, RETRY_DELAY_MS)] }
      else
        { st with
          rows := (updateVideoHistoryStatus now st.rows video.videoId video.userId
            "failed" none
            (some (errorMessage ++ " (Failed after " ++ toString MAX_RETRIES
              ++ " retries)"))).2 }
    match rotationToken with
    | some tid => { st1 with tokenErrorsRecorded := st1.tokenErrorsRecorded ++ [tid] }
    | none => st1

/-- `n` consecutive submission failures of the same job, each handled by
`handleVideoFailure`. -/
def failureRounds (now : Nat) (st : QueueEffects) (video : QueuedVideo)
    (msg : String) (tok : Option Nat) : Nat → QueueEffects
  | 0 => st
  | n + 1 => handleVideoFailure now (failureRounds now st video msg tok n)
      video msg tok

/-! ## Database retry wrapper (server/db.ts, `withRetry`) -/

/-- The message phrases `withRetry` probes with `error.message.includes`. -/
inductive DbMsg where
  | connectionTerminated
  | webSocketNotOpen
  | serverClosedUnexpectedly
  | socketHangUp
  | econnrefusedText
  | econnresetText
  | connectionTimeout
  | timeoutExceededWhenConnecting
  | connectionToServer
  | otherText (s : String)
deriving DecidableEq, Repr

/-- A database-layer error: the phrases its message contains and its
optional `code`. -/
structure DbError where
  msgParts : List DbMsg
  code : Option String
deriving DecidableEq, Repr

/-- The retryability test of `withRetry`, clause for clause. -/
def isRetryable (e : DbError) : Bool :=
  e.msgParts.contains DbMsg.connectionTerminated ||
  e.msgParts.contains DbMsg.webSocketNotOpen ||
  e.msgParts.contains DbMsg.serverClosedUnexpectedly ||
  e.msgParts.contains DbMsg.socketHangUp ||
  e.msgParts.contains DbMsg.econnrefusedText ||
  e.msgParts.contains DbMsg.econnresetText ||
  e.msgParts.contains DbMsg.connectionTimeout ||
  e.msgParts.contains DbMsg.timeoutExceededWhenConnecting ||
  e.msgParts.contains DbMsg.connectionToServer ||
  e.code == some "ECONNRESET" ||
  e.code == some "ECONNREFUSED" ||
  e.code == some "ETIMEDOUT" ||
  e.code == some "EPIPE" ||
  e.code == some "57P01" ||
  e.code == some "57P02" ||
  e.code == some "57P03" ||
  e.code == some "08006" ||
  e.code == some "08003"

/-- Outcome of one invocation of the wrapped operation. -/
inductive DbOutcome (α : Type) where
  | ok (value : α)
  | err (e : DbError)

/-- The backoff before the retry following attempt number `attempt`
(0-based): `min(baseDelayMs * 2^attempt, 5000)`. -/
def backoffDelay (baseDelayMs attempt : Nat) : Nat :=
  min (baseDelayMs * 2 ^ attempt) 5000

/-- The sleep the source computes: `backoff + Math.random() * backoff * 0.3`
for a uniform draw `rand` in `[0, 1]`. -/
def retrySleep (baseDelayMs attempt : Nat) (rand : ℚ) : ℚ :=
  let backoff : ℚ := backoffDelay baseDelayMs attempt
  backoff + rand * backoff * (3 / 10)

/-- Modelled from the spec words only (for comparison with `retrySleep`):
a jitter of plus-or-minus 30 percent, i.e. the backoff scaled by
`1 + (2*rand - 1) * 0.3` so a draw of 0 lands 30 percent below backoff. -/
def specClaimedRetrySleep (baseDelayMs attempt : Nat) (rand : ℚ) : ℚ :=
  let backoff : ℚ := backoffDelay baseDelayMs attempt
  backoff + (2 * rand - 1) * backoff * (3 / 10)

/-- The retry loop of `withRetry`, with the outcome of attempt `i` given
by `op i`.  `fuel` is `maxRetries - attempt`; the guard `fuel = 0` inside
the step is the source's `attempt === maxRetries - 1`.  Returns the
result and the number of attempts consumed. -/
def withRetryAux (op : Nat → DbOutcome α) (attempt : Nat) :
    Nat → Except DbError α × Nat
  | 0 => (Except.error { msgParts := [], code := none }, attempt)
  | fuel + 1 =>
    match op attempt with
    | DbOutcome.ok v => (Except.ok v, attempt + 1)
    | DbOutcome.err e =>
      if isRetryable e = false ∨ fuel = 0 then (Except.error e, attempt + 1)
      else withRetryAux op (attempt + 1) fuel

/-- `withRetry(operation)` with the default `maxRetries = 5`. -/
def withRetry (op : Nat → DbOutcome α) : Except DbError α × Nat :=
  withRetryAux op 0 5

/-! ## Token pool (server/storage.ts) -/

def ERROR_THRESHOLD : Nat := 10
def ERROR_WINDOW_MS : Nat := 20 * 60 * 1000
def COOLDOWN_DURATION_MS : Nat := 2 * 60 * 60 * 1000
def BATCH_SIZE : Nat := 100

/-- An `api_tokens` row.  The table order of `PoolState.tokens` is the
`createdAt` order the dispenser sorts by. -/
structure ApiToken where
  id : Nat
  isActive : Bool
  currentBatchCount : Nat
  totalGenerated : Nat
  batchStartedAt : Option Nat
  lastUsedAt : Option Nat
deriving DecidableEq, Repr

/-- The `token_settings` singleton row. -/
structure TokenSettings where
  lastUsedTokenIndex : Nat
deriving DecidableEq, Repr

/-- Storage-module state: the two tables plus the two in-memory maps
`tokenErrorTracking` and `tokenCooldowns` (association lists keyed by
token id). -/
structure PoolState where
  tokens : List ApiToken
  settings : Option TokenSettings
  errorLog : List (Nat × List Nat)
  cooldowns : List (Nat × Nat)
deriving DecidableEq, Repr

/-- `Map.get`: the binding of a key (keys are unique in a JS `Map`; on
an association list, the first binding). -/
def lookupA {α : Type} : List (Nat × α) → Nat → Option α
  | [], _ => none
  | kv :: m, k => if kv.1 = k then some kv.2 else lookupA m k

/-- `Map.delete`. -/
def delA {α : Type} : List (Nat × α) → Nat → List (Nat × α)
  | [], _ => []
  | kv :: m, k => if kv.1 = k then delA m k else kv :: delA m k

/-- `Map.set`. -/
def setA {α : Type} (m : List (Nat × α)) (k : Nat) (v : α) : List (Nat × α) :=
  (k, v) :: delA m k

/-- `isTokenInCooldown(tokenId)`: no entry means no cooldown; an entry
with `now >= cooldownEnd` is lazily expired (the cooldown entry and the
token's whole error history are deleted) and reports false; otherwise
true.  Returns the answer and the possibly-updated maps. -/
def isTokenInCooldown (now : Nat) (s : PoolState) (tokenId : Nat) :
    Bool × PoolState :=
  match lookupA s.cooldowns tokenId with
  | none => (false, s)
  | some cooldownEnd =>
    if cooldownEnd ≤ now then
      (false, { s with cooldowns := delA s.cooldowns tokenId,
                       errorLog := delA s.errorLog tokenId })
    else (true, s)

/-- The pure reading of the cooldown test (what `isTokenInCooldown`
answers, without its lazy-expiry side effect). -/
def inCooldownP (now : Nat) (s : PoolState) (tokenId : Nat) : Bool :=
  match lookupA s.cooldowns tokenId with
  | none => false
  | some cooldownEnd => decide (now < cooldownEnd)

/-- `recordTokenError(tokenId)`: append the current instant, prune
entries at least `ERROR_WINDOW_MS` old, store the pruned list, and when
its length reaches `ERROR_THRESHOLD` set the cooldown end to
`now + COOLDOWN_DURATION_MS`. -/
def recordTokenError (now : Nat) (s : PoolState) (tokenId : Nat) : PoolState :=
  let errors := (lookupA s.errorLog tokenId).getD []
  let errors2 := errors ++ [now]
  let recentErrors := errors2.filter fun ts => now - ts < ERROR_WINDOW_MS
  let s1 := { s with errorLog := setA s.errorLog tokenId recentErrors }
  if ERROR_THRESHOLD ≤ recentErrors.length then
    { s1 with cooldowns := setA s1.cooldowns tokenId (now + COOLDOWN_DURATION_MS) }
  else s1

/-- `getRecentErrorCount(tokenId)`. -/
def getRecentErrorCount (now : Nat) (s : PoolState) (tokenId : Nat) : Nat :=
  (((lookupA s.errorLog tokenId).getD []).filter
    fun ts => now - ts < ERROR_WINDOW_MS).length

/-- The cooldown filter of the dispensers:
`tokens.filter(t => !this.isTokenInCooldown(t.id))`, threading the lazy
expiry through the checks in list order. -/
def filterCooldown (now : Nat) : List ApiToken → PoolState →
    List ApiToken × PoolState
  | [], s => ([], s)
  | t :: ts, s =>
    let p1 := isTokenInCooldown now s t.id
    let p2 := filterCooldown now ts p1.2
    (if p1.1 then p2.1 else t :: p2.1, p2.2)

/-- First row with a given id (`select ... where id = tokenId`). -/
def findTok (ts : List ApiToken) (tokenId : Nat) : Option ApiToken :=
  ts.find? fun t => t.id = tokenId

/-- `update api_tokens set ... where id = tokenId`. -/
def updateTok (ts : List ApiToken) (tokenId : Nat) (f : ApiToken → ApiToken) :
    List ApiToken :=
  ts.map fun t => if t.id = tokenId then f t else t

/-- `getCurrentBatchToken()`: the round-robin batch dispenser, as one
transaction.  Reads the settings cursor, takes the active tokens in
creation order, filters out cooldown tokens, locks and re-reads the
cursor row; on `currentBatchCount >= BATCH_SIZE` resets that row to 0,
advances the cursor, locks the next row, increments it and persists the
new cursor; otherwise increments the cursor row in place. -/
def getCurrentBatchToken (now : Nat) (s : PoolState) :
    Option ApiToken × PoolState :=
  match s.settings with
  | none => (none, s)
  | some settings =>
    let currentIndex := settings.lastUsedTokenIndex
    let allTokens := s.tokens.filter fun t => t.isActive
    if allTokens.length = 0 then (none, s)
    else
      let fc := filterCooldown now allTokens s
      let availableTokens := fc.1
      let s1 := fc.2
      if availableTokens.length = 0 then (none, s1)
      else
        let tokenIndex := currentIndex % availableTokens.length
        match availableTokens.get? tokenIndex with
        | none => (none, s1)
        | some slot =>
          match findTok s1.tokens slot.id with
          | none => (none, s1)
          | some currentToken =>
            if BATCH_SIZE ≤ currentToken.currentBatchCount then
              let nextIndex := (currentIndex + 1) % availableTokens.length
              match availableTokens.get? nextIndex with
              | none => (none, s1)
              | some nextSlot =>
                let tokensA := updateTok s1.tokens currentToken.id
                  fun t => { t with currentBatchCount := 0 }
                match findTok tokensA nextSlot.id with
                | none => (none, { s1 with tokens := tokensA })
                | some _ =>
                  let tokensB := updateTok tokensA nextSlot.id fun t =>
                    { t with
                      currentBatchCount := t.currentBatchCount + 1
                      totalGenerated := t.totalGenerated + 1
                      batchStartedAt := some now
                      lastUsedAt := some now }
                  let s2 := { s1 with
                    tokens := tokensB
                    settings := some { settings with lastUsedTokenIndex := nextIndex } }
                  (findTok tokensB nextSlot.id, s2)
            else
              let batchStartedAt := currentToken.batchStartedAt.getD now
              let tokensB := updateTok s1.tokens currentToken.id fun t =>
                { t with
                  currentBatchCount := t.currentBatchCount + 1
                  totalGenerated := t.totalGenerated + 1
                  batchStartedAt := some batchStartedAt
                  lastUsedAt := some now }
              (findTok tokensB currentToken.id, { s1 with tokens := tokensB })

/-- Ascending `lastUsedAt` with nulls last (the Postgres default the
source relies on for `orderBy(apiTokens.lastUsedAt)`). -/
def lruOrder (a b : ApiToken) : Bool :=
  match a.lastUsedAt, b.lastUsedAt with
  | none, none => true
  | none, some _ => false
  | some _, none => true
  | some x, some y => x ≤ y

/-- The scan of `getNextRotationToken`: skip cooldown tokens (a stateful
check) and tokens with at least `ERROR_THRESHOLD - 1` recent errors;
return the first survivor. -/
def scanRotation (now : Nat) : List ApiToken → PoolState →
    Option ApiToken × PoolState
  | [], s => (none, s)
  | t :: ts, s =>
    let p1 := isTokenInCooldown now s t.id
    if p1.1 then scanRotation now ts p1.2
    else if ERROR_THRESHOLD - 1 ≤ getRecentErrorCount now p1.2 t.id then
      scanRotation now ts p1.2
    else (some t, p1.2)

/-- `getNextRotationToken()`: active tokens ordered least-recently-used
first, then the scan above. -/
def getNextRotationToken (now : Nat) (s : PoolState) :
    Option ApiToken × PoolState :=
  scanRotation now ((s.tokens.filter fun t => t.isActive).mergeSort lruOrder) s

/-! ### The operations of the pool, for reachability -/

/-- The state-changing pool operations a run may interleave: batch
dispenses, rotation dispenses, error recording, lazy cooldown checks,
activity toggles (`toggleApiTokenStatus`), and settings updates
(`updateTokenSettings` on the cursor). -/
inductive PoolOp where
  | dispense (now : Nat)
  | rotate (now : Nat)
  | recordErr (now tokenId : Nat)
  | cooldownCheck (now tokenId : Nat)
  | toggle (tokenId : Nat) (isActive : Bool)
  | setIndex (idx : Nat)
deriving DecidableEq, Repr

def applyPoolOp (s : PoolState) : PoolOp → PoolState
  | PoolOp.dispense now => (getCurrentBatchToken now s).2
  | PoolOp.rotate now => (getNextRotationToken now s).2
  | PoolOp.recordErr now tokenId => recordTokenError now s tokenId
  | PoolOp.cooldownCheck now tokenId => (isTokenInCooldown now s tokenId).2
  | PoolOp.toggle tokenId b =>
    { s with tokens := updateTok s.tokens tokenId fun t => { t with isActive := b } }
  | PoolOp.setIndex idx =>
    { s with settings := some { lastUsedTokenIndex := idx } }

def runPoolOps (s : PoolState) (ops : List PoolOp) : PoolState :=
  ops.foldl applyPoolOp s

/-- The pool state right after tokens are created: every counter 0,
cursor 0, no recorded errors, no cooldowns. -/
def initPool (ids : List Nat) : PoolState :=
  { tokens := ids.map fun i =>
      { id := i, isActive := true, currentBatchCount := 0, totalGenerated := 0,
        batchStartedAt := none, lastUsedAt := none }
    settings := some { lastUsedTokenIndex := 0 }
    errorLog := []
    cooldowns := [] }

/-- The invariant claimed of the batch counters. -/
def BatchCountInv (s : PoolState) : Prop :=
  ∀ t ∈ s.tokens, t.isActive = true → t.currentBatchCount ≤ BATCH_SIZE

/-! ## Media-upload deduplication (routes `check-video-status` +
server/pollingCoordinator.ts) -/

/-- Dedup state: the scene ids holding a stored promise in
`cloudinaryUploadCache`, and the log of every initiated media-host
upload (by scene id). -/
structure UploadState where
  cache : List Nat
  uploadsStarted : List Nat
deriving DecidableEq, Repr

/-- A completion event for a scene.  `routeCheck` is the
`/api/check-video-status` path (consults the cache; a failed upload is
removed from the cache by its catch handler).  `coordinatorComplete` is
the polling coordinator's completion path, which calls
`uploadVideoToCloudinary` directly. -/
inductive CompletionEvent where
  | routeCheck (sceneId : Nat) (uploadSucceeds : Bool)
  | coordinatorComplete (sceneId : Nat)
deriving DecidableEq, Repr

def applyCompletion (st : UploadState) : CompletionEvent → UploadState
  | CompletionEvent.routeCheck sceneId ok =>
    if sceneId ∈ st.cache then st
    else
      { cache := if ok then sceneId :: st.cache else st.cache
        uploadsStarted := st.uploadsStarted ++ [sceneId] }
  | CompletionEvent.coordinatorComplete sceneId =>
    { st with uploadsStarted := st.uploadsStarted ++ [sceneId] }

def runCompletions (st : UploadState) (evs : List CompletionEvent) : UploadState :=
  evs.foldl applyCompletion st

/-- How many uploads a run initiated for a scene. -/
def uploadCount (st : UploadState) (sceneId : Nat) : Nat :=
  st.uploadsStarted.count sceneId

def emptyUploadState : UploadState := { cache := [], uploadsStarted := [] }

/-! ## Mutations of a job row after creation (routes + coordinator) -/

/-- The operations of the system that write a job row's `status`,
`videoUrl` or `errorMessage` after creation: the PATCH
`/api/video-history/:id` endpoint (arbitrary status/videoUrl/tokenUsed),
the regenerate endpoint (sets the row back to `pending`), the
coordinator's completion and failure writes, and its heartbeat touch. -/
inductive RowOp where
  | patchRow (userId : Nat) (status : Option String) (videoUrl : Option String)
      (tokenUsed : Option Nat)
  | regenerate (userId : Nat)
  | markCompleted (userId : Nat) (hostedUrl : String)
  | markFailed (userId : Nat) (message : String)
  | heartbeat
deriving DecidableEq, Repr

def applyRowOp (now : Nat) (rows : List VideoRow) (videoId : Nat) :
    RowOp → List VideoRow
  | RowOp.patchRow userId status videoUrl tokenUsed =>
    (updateVideoHistoryFields now rows videoId (some userId)
      { status := status, videoUrl := videoUrl,
        tokenUsed := tokenUsed.map some }).2
  | RowOp.regenerate userId =>
    (updateVideoHistoryStatus now rows videoId userId "pending" none none).2
  | RowOp.markCompleted userId hostedUrl =>
    (updateVideoHistoryStatus now rows videoId userId "completed"
      (some hostedUrl) none).2
  | RowOp.markFailed userId message =>
    (updateVideoHistoryStatus now rows videoId userId "failed" none
      (some message)).2
  | RowOp.heartbeat =>
    (updateVideoHistoryFields now rows videoId none {}).2

/-- A status is terminal per the spec. -/
def isTerminal (status : String) : Bool :=
  status = "completed" || status = "failed"

/-! ## Bulk submission (route `bulk-generate` + server/bulkQueue.ts) -/

/-- Durable rows plus the in-memory `bulkQueue` array. -/
structure BulkState where
  rows : List VideoRow
  queue : List QueuedVideo
deriving DecidableEq, Repr

/-- `addToQueue(videos, delaySeconds?)`: appends to the in-memory queue
and kicks the processor; it writes no row. -/
def addToQueue (st : BulkState) (videos : List QueuedVideo) : BulkState :=
  { st with queue := st.queue ++ videos }

/-- One created row of the bulk-generate handler: status `pending`. -/
def mkBulkRow (now userId : Nat) (videoId : Nat) (prompt aspect : String) :
    VideoRow :=
  { id := videoId, userId := userId, prompt := prompt, aspect := aspect,
    status := "pending", videoUrl := none, errorMessage := none,
    retryCount := 0, tokenUsed := none, createdAt := now, updatedAt := now }

/-- The `POST /api/bulk-generate` core: create one `pending` row per
prompt (ids `idStart`, `idStart+1`, ...), build the queued jobs
(sceneNumber `i+1`), and hand them to `addToQueue`.  No other job write
happens in the handler. -/
def bulkGenerate (now userId idStart : Nat) (prompts : List String)
    (aspect : String) (st : BulkState) : BulkState :=
  let created := List.range prompts.length |>.map fun i =>
    mkBulkRow now userId (idStart + i) (prompts.getD i "") aspect
  let queued := List.range prompts.length |>.map fun i =>
    ({ videoId := idStart + i, prompt := prompts.getD i "", aspect := aspect,
       sceneNumber := i + 1, userId := userId } : QueuedVideo)
  addToQueue { st with rows := st.rows ++ created } queued

/-! ## Concrete instances used in scenarios, witnesses and
counterexamples -/

/-- A scale-tier user, 990 of 1000 daily videos used, plan unexpired at
instant 5. -/
def scaleUser : User :=
  { isAdmin := false, planType := "scale", planExpiry := some 10,
    dailyVideoCount := 990 }

/-- The scale tier's `PLAN_CONFIGS` entry. -/
def scaleConfig : PlanConfig :=
  { name := "Scale", dailyVideoLimit := 1000,
    allowedTools := [Tool.veo, Tool.bulk],
    maxBatch := 7, delaySeconds := 30, maxPrompts := 50 }

/-- Scenario S2: a token one dispense away from a full batch. -/
def s2TokA : ApiToken :=
  { id := 1, isActive := true, currentBatchCount := 99, totalGenerated := 0,
    batchStartedAt := none, lastUsedAt := none }

/-- Scenario S2: the next active token. -/
def s2TokB : ApiToken :=
  { id := 2, isActive := true, currentBatchCount := 0, totalGenerated := 0,
    batchStartedAt := none, lastUsedAt := none }

/-- Scenario S2 start state: cursor 0, no errors, no cooldowns. -/
def s2State : PoolState :=
  { tokens := [s2TokA, s2TokB], settings := some { lastUsedTokenIndex := 0 },
    errorLog := [], cooldowns := [] }

/-- Token 1 as returned by the first S2 dispense (at instant 5). -/
def s2TokAOut : ApiToken :=
  { s2TokA with
    currentBatchCount := 100
    totalGenerated := 1
    batchStartedAt := some 5
    lastUsedAt := some 5 }

/-- Token 2 as returned by the second S2 dispense (at instant 6). -/
def s2TokBOut : ApiToken :=
  { s2TokB with
    currentBatchCount := 1
    totalGenerated := 1
    batchStartedAt := some 6
    lastUsedAt := some 6 }

/-- A pending bulk job row with no retries yet. -/
def c4Row : VideoRow :=
  { id := 4, userId := 9, prompt := "p", aspect := "landscape",
    status := "pending", videoUrl := none, errorMessage := none,
    retryCount := 0, tokenUsed := some 7, createdAt := 0, updatedAt := 0 }

/-- Queue effects holding only that row. -/
def c4St : QueueEffects :=
  { rows := [c4Row], scheduledRequeues := [], tokenErrorsRecorded := [] }

/-- The queued job for that row. -/
def c4Video : QueuedVideo :=
  { videoId := 4, prompt := "p", aspect := "landscape", sceneNumber := 1,
    userId := 9 }

/-- A completed job row with a hosted URL. -/
def c7Row : VideoRow :=
  { id := 3, userId := 8, prompt := "p", aspect := "landscape",
    status := "completed", videoUrl := some "https://host/v.mp4",
    errorMessage := none, retryCount := 0, tokenUsed := none,
    createdAt := 0, updatedAt := 0 }

/-- That row after the regenerate endpoint ran at instant 1. -/
def c7RowAfter : VideoRow :=
  { c7Row with status := "pending", updatedAt := 1 }

/-- An empty bulk state (fresh process, empty table). -/
def c8EmptyState : BulkState := { rows := [], queue := [] }

/-- The single queued job a one-prompt bulk submission produces. -/
def c8Qv : QueuedVideo :=
  { videoId := 4, prompt := "a test prompt", aspect := "landscape",
    sceneNumber := 1, userId := 9 }

/-- A pool state whose token 5 already has nine errors in the window
(recorded at instants 0..8). -/
def c3State : PoolState :=
  { tokens := [], settings := none,
    errorLog := [(5, [0, 1, 2, 3, 4, 5, 6, 7, 8])], cooldowns := [] }

/-- Operation sequence reaching a batch counter above `BATCH_SIZE` with
two fresh tokens: fill token 1 to 100, point the cursor at token 2, fill
it to 100, then dispense once more — the rollover resets token 2 and
increments token 1 from 100 to 101. -/
def c2Ops : List PoolOp :=
  List.replicate 100 (PoolOp.dispense 0) ++ [PoolOp.setIndex 1]
    ++ List.replicate 100 (PoolOp.dispense 0) ++ [PoolOp.dispense 0]

/-! ## Theorems -/

/-- C5: `canBulkGenerate` is an unconditional admin bypass; otherwise the
`bulk` tool check runs first (plan expiry and tool membership), then the
`maxPrompts` cap, then the remaining daily quota
`dailyLimit - dailyVideoCount`; every denial carries a reason instead of
an exception.  The tier parameters are maxPrompts 50/100 and daily
limits 1000/2000/0 for scale/empire/free, and free lacks the bulk
tool. -/
theorem c5_canBulkGenerate_spec (now : Nat) (u : User) (n : Nat) :
    (u.isAdmin = true → canBulkGenerate now u n = { allowed := true }) ∧
    (u.isAdmin = false → (canAccessTool now u Tool.bulk).allowed = false →
      canBulkGenerate now u n = canAccessTool now u Tool.bulk) ∧
    (u.isAdmin = false → ∀ config, PLAN_CONFIGS u.planType = some config →
      ((canBulkGenerate now u n).allowed = true ↔
        (isPlanExpired now u = false ∧ Tool.bulk ∈ config.allowedTools ∧
         n ≤ config.maxPrompts ∧
         n ≤ config.dailyVideoLimit - u.dailyVideoCount))) ∧
    ((canBulkGenerate now u n).allowed = false →
      (canBulkGenerate now u n).reason.isSome = true) ∧
    ((PLAN_CONFIGS "scale").map PlanConfig.maxPrompts = some 50 ∧
     (PLAN_CONFIGS "empire").map PlanConfig.maxPrompts = some 100 ∧
     (PLAN_CONFIGS "free").map PlanConfig.dailyVideoLimit = some 0 ∧
     (PLAN_CONFIGS "scale").map PlanConfig.dailyVideoLimit = some 1000 ∧
     (PLAN_CONFIGS "empire").map PlanConfig.dailyVideoLimit = some 2000 ∧
     ∀ config, PLAN_CONFIGS "free" = some config →
       Tool.bulk ∉ config.allowedTools) := by
  refine ⟨?_, ?_, ?_, ?_, by decide⟩
  · intro hadm
    simp [canBulkGenerate, hadm]
  · intro hadm htool
    simp [canBulkGenerate, hadm, htool]
  · intro hadm config hconfig
    by_cases hexp : isPlanExpired now u = true
    · have htool : (canAccessTool now u Tool.bulk).allowed = false := by
        simp [canAccessTool, hadm, hexp]
      simp [canBulkGenerate, hadm, htool, canAccessTool, hexp]
    · rw [Bool.not_eq_true] at hexp
      by_cases hmem : Tool.bulk ∈ config.allowedTools
      · have htool : canAccessTool now u Tool.bulk = { allowed := true } := by
          simp [canAccessTool, hadm, hexp, hconfig, hmem]
        by_cases hmax : n > config.maxPrompts
        · simp only [canBulkGenerate, hadm, htool, hconfig, hmax]
          simp [hexp, hmem]
          omega
        · by_cases hrem : n > getRemainingVideos u
          · have : getRemainingVideos u = config.dailyVideoLimit - u.dailyVideoCount := by
              simp [getRemainingVideos, hconfig]
            simp [canBulkGenerate, hadm, htool, hconfig, hmax, hrem, hexp, hmem]
            omega
          · have : getRemainingVideos u = config.dailyVideoLimit - u.dailyVideoCount := by
              simp [getRemainingVideos, hconfig]
            simp [canBulkGenerate, hadm, htool, hconfig, hmax, hrem, hexp, hmem]
            omega
      · have htool : canAccessTool now u Tool.bulk =
            { allowed := false,
              reason := some ("This tool is not available on your " ++ config.name
                ++ " plan. Please upgrade to access this feature.") } := by
          simp [canAccessTool, hadm, hexp, hconfig, hmem]
        simp [canBulkGenerate, hadm, htool, hmem]
  · intro hden
    by_cases hadm : u.isAdmin = true
    · simp [canBulkGenerate, hadm] at hden
    · rw [Bool.not_eq_true] at hadm
      by_cases hexp : isPlanExpired now u = true
      · simp [canBulkGenerate, canAccessTool, hadm, hexp]
      · rw [Bool.not_eq_true] at hexp
        cases hconfig : PLAN_CONFIGS u.planType with
        | none => simp [canBulkGenerate, canAccessTool, hadm, hexp, hconfig]
        | some config =>
          by_cases hmem : Tool.bulk ∈ config.allowedTools
          · have htool : canAccessTool now u Tool.bulk = { allowed := true } := by
              simp [canAccessTool, hadm, hexp, hconfig, hmem]
            by_cases hmax : n > config.maxPrompts
            · simp [canBulkGenerate, hadm, htool, hconfig, hmax]
            · by_cases hrem : n > getRemainingVideos u
              · simp [canBulkGenerate, hadm, htool, hconfig, hmax, hrem]
              · simp [canBulkGenerate, hadm, htool, hconfig, hmax, hrem] at hden
          · have htool : (canAccessTool now u Tool.bulk).allowed = false := by
              simp [canAccessTool, hadm, hexp, hconfig, hmem]
            have : canBulkGenerate now u n = canAccessTool now u Tool.bulk := by
              simp [canBulkGenerate, hadm, htool]
            rw [this]
            simp [canAccessTool, hadm, hexp, hconfig, hmem]

/-- Witness for C5: a scale user with 990 of 1000 daily videos used and
an unexpired plan is denied 60 prompts (over maxPrompts 50) but the
characterization confirms 10 prompts within quota would be allowed. -/
theorem c5_canBulkGenerate_spec_witness :
    ((canBulkGenerate 5 scaleUser 10).allowed = true ↔
      (isPlanExpired 5 scaleUser = false ∧
       Tool.bulk ∈ scaleConfig.allowedTools ∧
       10 ≤ scaleConfig.maxPrompts ∧
       10 ≤ scaleConfig.dailyVideoLimit - scaleUser.dailyVideoCount)) :=
  (c5_canBulkGenerate_spec 5 scaleUser 10).2.2.1 rfl scaleConfig (by decide)

/-- C10: frame property of `updateVideoHistoryStatus`.  Rows not
matching both ids are untouched.  For the matched row, only `status` and
the server-set `updatedAt` are written unconditionally; `videoUrl`
(resp. `errorMessage`) is written only when supplied and non-empty,
otherwise the stored value is kept — in particular every other field is
unchanged by the update. -/
theorem c10_updateVideoHistoryStatus_frame
    (now : Nat) (rows : List VideoRow) (videoId userId : Nat)
    (status : String) (videoUrl errorMessage : Option String)
    (r : VideoRow) (hr : r ∈ rows) :
    (¬(r.id = videoId ∧ r.userId = userId) →
      r ∈ (updateVideoHistoryStatus now rows videoId userId status
            videoUrl errorMessage).2) ∧
    ((r.id = videoId ∧ r.userId = userId) →
      ∃ r2 ∈ (updateVideoHistoryStatus now rows videoId userId status
                videoUrl errorMessage).2,
        r2.id = r.id ∧ r2.userId = r.userId ∧ r2.prompt = r.prompt ∧
        r2.aspect = r.aspect ∧ r2.retryCount = r.retryCount ∧
        r2.tokenUsed = r.tokenUsed ∧ r2.createdAt = r.createdAt ∧
        r2.status = status ∧ r2.updatedAt = now ∧
        (truthyStr videoUrl = false → r2.videoUrl = r.videoUrl) ∧
        (truthyStr videoUrl = true → r2.videoUrl = videoUrl) ∧
        (truthyStr errorMessage = false → r2.errorMessage = r.errorMessage) ∧
        (truthyStr errorMessage = true → r2.errorMessage = errorMessage)) := by
  constructor
  · intro hne
    have : r ∈ (rows.map fun r0 =>
        if r0.id = videoId ∧ r0.userId = userId then
          { r0 with
            status := status
            updatedAt := now
            videoUrl := if truthyStr videoUrl then videoUrl else r0.videoUrl
            errorMessage := if truthyStr errorMessage then errorMessage
              else r0.errorMessage }
        else r0) := by
      have := List.mem_map_of_mem (fun r0 : VideoRow =>
        if r0.id = videoId ∧ r0.userId = userId then
          { r0 with
            status := status
            updatedAt := now
            videoUrl := if truthyStr videoUrl then videoUrl else r0.videoUrl
            errorMessage := if truthyStr errorMessage then errorMessage
              else r0.errorMessage }
        else r0) hr
      simp only at this
      rwa [if_neg hne] at this
    simpa [updateVideoHistoryStatus] using this
  · intro hm
    refine ⟨{ r with
        status := status
        updatedAt := now
        videoUrl := if truthyStr videoUrl then videoUrl else r.videoUrl
        errorMessage := if truthyStr errorMessage then errorMessage
          else r.errorMessage }, ?_, ?_⟩
    · have := List.mem_map_of_mem (fun r0 : VideoRow =>
        if r0.id = videoId ∧ r0.userId = userId then
          { r0 with
            status := status
            updatedAt := now
            videoUrl := if truthyStr videoUrl then videoUrl else r0.videoUrl
            errorMessage := if truthyStr errorMessage then errorMessage
              else r0.errorMessage }
        else r0) hr
      simp only at this
      rw [if_pos hm] at this
      simpa [updateVideoHistoryStatus] using this
    · refine ⟨rfl, rfl, rfl, rfl, rfl, rfl, rfl, rfl, rfl, ?_, ?_, ?_, ?_⟩
      all_goals intro h
      all_goals simp [h]

/-- Witness for C10: marking a job failed without a message or URL
keeps the stored hosted URL and error message. -/
theorem c10_updateVideoHistoryStatus_frame_witness :
    ∃ r2 ∈ (updateVideoHistoryStatus 77
        [{ id := 4, userId := 9, prompt := "p", aspect := "landscape",
           status := "completed", videoUrl := some "https://host/v.mp4",
           errorMessage := none, retryCount := 1, tokenUsed := some 3,
           createdAt := 10, updatedAt := 20 }] 4 9 "failed" none none).2,
      r2.id = 4 ∧ r2.userId = 9 ∧ r2.prompt = "p" ∧ r2.aspect = "landscape" ∧
      r2.retryCount = 1 ∧ r2.tokenUsed = some 3 ∧ r2.createdAt = 10 ∧
      r2.status = "failed" ∧ r2.updatedAt = 77 ∧
      r2.videoUrl = some "https://host/v.mp4" ∧ r2.errorMessage = none := by
  obtain ⟨r2, hmem, h1, h2, h3, h4, h5, h6, h7, h8, h9, h10, -, h12, -⟩ :=
    (c10_updateVideoHistoryStatus_frame 77
      [{ id := 4, userId := 9, prompt := "p", aspect := "landscape",
         status := "completed", videoUrl := some "https://host/v.mp4",
         errorMessage := none, retryCount := 1, tokenUsed := some 3,
         createdAt := 10, updatedAt := 20 }] 4 9 "failed" none none
      { id := 4, userId := 9, prompt := "p", aspect := "landscape",
        status := "completed", videoUrl := some "https://host/v.mp4",
        errorMessage := none, retryCount := 1, tokenUsed := some 3,
        createdAt := 10, updatedAt := 20 } (by decide)).2 (by decide)
  exact ⟨r2, hmem, h1, h2, h3, h4, h5, h6, h7, h8, h9,
    h10 (by decide), h12 (by decide)⟩

/-- The retry loop never consumes more attempts than its fuel. -/
theorem withRetryAux_attempts_le {α : Type} (op : Nat → DbOutcome α) :
    ∀ (fuel attempt : Nat), (withRetryAux op attempt fuel).2 ≤ attempt + fuel := by
  intro fuel
  induction fuel with
  | zero => intro attempt; simp [withRetryAux]
  | succ f ih =>
    intro attempt
    cases hop : op attempt with
    | ok v =>
      have heq : withRetryAux op attempt (f + 1) = (Except.ok v, attempt + 1) := by
        simp only [withRetryAux, hop]
      rw [heq]
      omega
    | err e =>
      by_cases hg : isRetryable e = false ∨ f = 0
      · have heq : withRetryAux op attempt (f + 1) = (Except.error e, attempt + 1) := by
          simp only [withRetryAux, hop]
          rw [if_pos hg]
        rw [heq]
        omega
      · have heq : withRetryAux op attempt (f + 1) = withRetryAux op (attempt + 1) f := by
          simp only [withRetryAux, hop]
          rw [if_neg hg]
        rw [heq]
        have := ih (attempt + 1)
        omega

/-- If the first `k` attempts fail with retryable errors and attempt `k`
succeeds within the fuel, the loop returns that value after `k + 1`
attempts. -/
theorem withRetryAux_ok {α : Type} (op : Nat → DbOutcome α) (v : α) :
    ∀ (k fuel attempt : Nat), k < fuel →
      (∀ j, j < k → ∃ e, op (attempt + j) = DbOutcome.err e ∧ isRetryable e = true) →
      op (attempt + k) = DbOutcome.ok v →
      withRetryAux op attempt fuel = (Except.ok v, attempt + k + 1) := by
  intro k
  induction k with
  | zero =>
    intro fuel attempt hk hprev hok
    obtain ⟨f, rfl⟩ : ∃ f, fuel = f + 1 := ⟨fuel - 1, by omega⟩
    rw [Nat.add_zero] at hok
    simp only [withRetryAux, hok]
  | succ k ih =>
    intro fuel attempt hk hprev hok
    obtain ⟨f, rfl⟩ : ∃ f, fuel = f + 1 := ⟨fuel - 1, by omega⟩
    obtain ⟨e, he, hre⟩ := hprev 0 (by omega)
    rw [Nat.add_zero] at he
    have hf : f ≠ 0 := by omega
    have heq : withRetryAux op attempt (f + 1) = withRetryAux op (attempt + 1) f := by
      simp only [withRetryAux, he]
      rw [if_neg (by simp [hre, hf])]
    rw [heq]
    have := ih f (attempt + 1) (by omega)
      (fun j hj => by
        have := hprev (j + 1) (by omega)
        rwa [show attempt + (j + 1) = attempt + 1 + j by omega] at this)
      (by rwa [show attempt + 1 + k = attempt + (k + 1) by omega])
    rw [this]
    congr 1
    omega

/-- A non-retryable error at attempt `k` (after `k` retryable failures)
propagates at once, after `k + 1` attempts. -/
theorem withRetryAux_fatal {α : Type} (op : Nat → DbOutcome α) (e : DbError) :
    ∀ (k fuel attempt : Nat), k < fuel →
      (∀ j, j < k → ∃ e2, op (attempt + j) = DbOutcome.err e2 ∧ isRetryable e2 = true) →
      op (attempt + k) = DbOutcome.err e → isRetryable e = false →
      withRetryAux op attempt fuel = (Except.error e, attempt + k + 1) := by
  intro k
  induction k with
  | zero =>
    intro fuel attempt hk hprev herr hnr
    obtain ⟨f, rfl⟩ : ∃ f, fuel = f + 1 := ⟨fuel - 1, by omega⟩
    rw [Nat.add_zero] at herr
    simp only [withRetryAux, herr]
    rw [if_pos (Or.inl hnr)]
  | succ k ih =>
    intro fuel attempt hk hprev herr hnr
    obtain ⟨f, rfl⟩ : ∃ f, fuel = f + 1 := ⟨fuel - 1, by omega⟩
    obtain ⟨e2, he2, hre2⟩ := hprev 0 (by omega)
    rw [Nat.add_zero] at he2
    have hf : f ≠ 0 := by omega
    have heq : withRetryAux op attempt (f + 1) = withRetryAux op (attempt + 1) f := by
      simp only [withRetryAux, he2]
      rw [if_neg (by simp [hre2, hf])]
    rw [heq]
    have := ih f (attempt + 1) (by omega)
      (fun j hj => by
        have := hprev (j + 1) (by omega)
        rwa [show attempt + (j + 1) = attempt + 1 + j by omega] at this)
      (by rwa [show attempt + 1 + k = attempt + (k + 1) by omega]) hnr
    rw [this]
    congr 1
    omega

/-- When every attempt within the fuel fails with a retryable error, the
loop gives up after exactly `fuel` attempts with the last error. -/
theorem withRetryAux_exhaust {α : Type} (op : Nat → DbOutcome α) (e : DbError) :
    ∀ (fuel attempt : Nat), 1 ≤ fuel →
      (∀ j, j < fuel → ∃ e2, op (attempt + j) = DbOutcome.err e2 ∧ isRetryable e2 = true) →
      op (attempt + (fuel - 1)) = DbOutcome.err e →
      withRetryAux op attempt fuel = (Except.error e, attempt + fuel) := by
  intro fuel
  induction fuel with
  | zero => omega
  | succ f ih =>
    intro attempt hf hall hlast
    by_cases hf0 : f = 0
    · subst hf0
      rw [show attempt + (1 - 1) = attempt by omega] at hlast
      simp [withRetryAux, hlast]
    · obtain ⟨e0, he0, hre0⟩ := hall 0 (by omega)
      rw [Nat.add_zero] at he0
      have heq : withRetryAux op attempt (f + 1) = withRetryAux op (attempt + 1) f := by
        simp only [withRetryAux, he0]
        rw [if_neg (by simp [hre0, hf0])]
      rw [heq]
      have := ih (attempt + 1) (by omega)
        (fun j hj => by
          have := hall (j + 1) (by omega)
          rwa [show attempt + (j + 1) = attempt + 1 + j by omega] at this)
        (by rwa [show attempt + 1 + (f - 1) = attempt + (f + 1 - 1) by omega])
      rw [this]
      congr 1
      omega

/-- C9 (amended): `withRetry` makes at most 5 attempts; it returns the
first success; a non-whitelisted error propagates immediately; after 5
whitelisted failures the last error propagates.  The whitelist is the
disjunction of the connection phrases and codes below, and the sleep
before a retry is `backoff + rand * backoff * 0.3` — an additive jitter
of 0 to +30 percent above the backoff `min(250 * 2^attempt, 5000)`,
never below it. -/
theorem c9_withRetry_amended {α : Type} (op : Nat → DbOutcome α) :
    ((withRetry op).2 ≤ 5) ∧
    (∀ (v : α) (k : Nat), k < 5 →
      (∀ j, j < k → ∃ e, op j = DbOutcome.err e ∧ isRetryable e = true) →
      op k = DbOutcome.ok v → withRetry op = (Except.ok v, k + 1)) ∧
    (∀ (e : DbError) (k : Nat), k < 5 →
      (∀ j, j < k → ∃ e2, op j = DbOutcome.err e2 ∧ isRetryable e2 = true) →
      op k = DbOutcome.err e → isRetryable e = false →
      withRetry op = (Except.error e, k + 1)) ∧
    (∀ (e : DbError),
      (∀ j, j < 5 → ∃ e2, op j = DbOutcome.err e2 ∧ isRetryable e2 = true) →
      op 4 = DbOutcome.err e → withRetry op = (Except.error e, 5)) ∧
    (∀ (baseDelayMs attempt : Nat) (rand : ℚ), 0 ≤ rand → rand ≤ 1 →
      ((backoffDelay baseDelayMs attempt : ℚ) ≤ retrySleep baseDelayMs attempt rand ∧
       retrySleep baseDelayMs attempt rand ≤
         (13 / 10) * (backoffDelay baseDelayMs attempt : ℚ))) ∧
    (backoffDelay 250 0 = 250 ∧ backoffDelay 250 4 = 4000 ∧
     backoffDelay 250 5 = 5000) ∧
    (∀ e : DbError, isRetryable e = true ↔
      (DbMsg.connectionTerminated ∈ e.msgParts ∨
       DbMsg.webSocketNotOpen ∈ e.msgParts ∨
       DbMsg.serverClosedUnexpectedly ∈ e.msgParts ∨
       DbMsg.socketHangUp ∈ e.msgParts ∨
       DbMsg.econnrefusedText ∈ e.msgParts ∨
       DbMsg.econnresetText ∈ e.msgParts ∨
       DbMsg.connectionTimeout ∈ e.msgParts ∨
       DbMsg.timeoutExceededWhenConnecting ∈ e.msgParts ∨
       DbMsg.connectionToServer ∈ e.msgParts ∨
       e.code = some "ECONNRESET" ∨ e.code = some "ECONNREFUSED" ∨
       e.code = some "ETIMEDOUT" ∨ e.code = some "EPIPE" ∨
       e.code = some "57P01" ∨ e.code = some "57P02" ∨
       e.code = some "57P03" ∨ e.code = some "08006" ∨
       e.code = some "08003")) := by
  refine ⟨?_, ?_, ?_, ?_, ?_, by decide, ?_⟩
  · simpa using withRetryAux_attempts_le op 5 0
  · intro v k hk hprev hok
    simpa using withRetryAux_ok op v k 5 0 hk (by simpa using hprev) (by simpa using hok)
  · intro e k hk hprev herr hnr
    simpa using withRetryAux_fatal op e k 5 0 hk (by simpa using hprev)
      (by simpa using herr) hnr
  · intro e hall hlast
    simpa using withRetryAux_exhaust op e 5 0 (by omega) (by simpa using hall)
      (by simpa using hlast)
  · intro baseDelayMs attempt rand h0 h1
    have hb : (0 : ℚ) ≤ (backoffDelay baseDelayMs attempt : ℚ) := by positivity
    constructor
    · simp only [retrySleep]
      nlinarith
    · simp only [retrySleep]
      nlinarith
  · intro e
    simp [isRetryable, List.elem_iff, beq_iff_eq, or_assoc]

/-- Witness for C9: one socket hang-up then a success — two attempts,
value returned. -/
theorem c9_withRetry_amended_witness :
    withRetry (fun j => if j = 0
      then DbOutcome.err { msgParts := [DbMsg.socketHangUp], code := none }
      else DbOutcome.ok (42 : Nat)) = (Except.ok 42, 2) :=
  (c9_withRetry_amended (fun j => if j = 0
      then DbOutcome.err { msgParts := [DbMsg.socketHangUp], code := none }
      else DbOutcome.ok (42 : Nat))).2.1 42 1 (by omega)
    (fun j hj => ⟨{ msgParts := [DbMsg.socketHangUp], code := none },
      by interval_cases j; rfl, rfl⟩)
    rfl

/-- C9 counterexample: the spec's plus-or-minus-30-percent jitter would
let the first retry sleep 175 ms (a draw of 0 lands 30 percent below the
250 ms backoff); the code's sleep at the same draw is exactly the 250 ms
backoff — the jitter is additive, never negative. -/
theorem c9_counterexample :
    retrySleep 250 0 0 = 250 ∧ specClaimedRetrySleep 250 0 0 = 175 ∧
      (250 : ℚ) ≠ 175 := by
  refine ⟨?_, ?_, by norm_num⟩
  · simp [retrySleep, backoffDelay]
  · simp [specClaimedRetrySleep, backoffDelay]
    norm_num

/-- A row matching an `updateVideoHistoryFields` call appears patched in
the result table. -/
theorem mem_updateVideoHistoryFields_target
    (now : Nat) (rows : List VideoRow) (videoId : Nat) (uid : Option Nat)
    (p : VideoFieldPatch) (r : VideoRow) (hr : r ∈ rows)
    (hid : r.id = videoId) (huid : ∀ u ∈ uid, r.userId = u) :
    applyPatch now p r ∈ (updateVideoHistoryFields now rows videoId uid p).2 := by
  have := List.mem_map_of_mem (fun r0 : VideoRow =>
    if r0.id = videoId ∧ (∀ u ∈ uid, r0.userId = u) then applyPatch now p r0
    else r0) hr
  simp only at this
  rw [if_pos ⟨hid, huid⟩] at this
  simpa [updateVideoHistoryFields] using this

/-- A row matching an `updateVideoHistoryStatus` call appears updated in
the result table. -/
theorem mem_updateVideoHistoryStatus_target
    (now : Nat) (rows : List VideoRow) (videoId userId : Nat)
    (status : String) (videoUrl errorMessage : Option String)
    (r : VideoRow) (hr : r ∈ rows)
    (hid : r.id = videoId) (huid : r.userId = userId) :
    ({ r with
       status := status
       updatedAt := now
       videoUrl := if truthyStr videoUrl then videoUrl else r.videoUrl
       errorMessage := if truthyStr errorMessage then errorMessage
         else r.errorMessage } : VideoRow)
      ∈ (updateVideoHistoryStatus now rows videoId userId status
          videoUrl errorMessage).2 := by
  have := List.mem_map_of_mem (fun r0 : VideoRow =>
    if r0.id = videoId ∧ r0.userId = userId then
      { r0 with
        status := status
        updatedAt := now
        videoUrl := if truthyStr videoUrl then videoUrl else r0.videoUrl
        errorMessage := if truthyStr errorMessage then errorMessage
          else r0.errorMessage }
    else r0) hr
  simp only at this
  rw [if_pos ⟨hid, huid⟩] at this
  simpa [updateVideoHistoryStatus] using this

/-- C4 (the code at the failing input): the retry bookkeeping the claim
describes — and that the function's own doc comment and log lines
announce — never reaches the database.  Whenever the durable row reads
`retryCount < MAX_RETRIES` (which, with nothing else writing
`retryCount`, is always), `handleVideoFailure` leaves every row exactly
as it was and re-enqueues the job; iterating failures on the concrete
job re-enqueues it once per round forever, with `retryCount` pinned at 0
and the terminal `failed` branch never reached. -/
theorem c4_handleVideoFailure_code_bug :
    (∀ (now : Nat) (st : QueueEffects) (video : QueuedVideo) (msg : String)
       (tok : Option Nat) (r : VideoRow),
       getVideoById st.rows video.videoId = some r →
       r.retryCount < MAX_RETRIES →
       (handleVideoFailure now st video msg tok).rows = st.rows ∧
       (handleVideoFailure now st video msg tok).scheduledRequeues
         = st.scheduledRequeues ++ [(video, RETRY_DELAY_MS)]) ∧
    (∀ n : Nat,
       (failureRounds 50 c4St c4Video "boom" (some 7) n).rows = c4St.rows ∧
       (failureRounds 50 c4St c4Video "boom" (some 7)
         n).scheduledRequeues.length = n) := by
  have hgen : ∀ (now : Nat) (st : QueueEffects) (video : QueuedVideo)
      (msg : String) (tok : Option Nat) (r : VideoRow),
      getVideoById st.rows video.videoId = some r →
      r.retryCount < MAX_RETRIES →
      (handleVideoFailure now st video msg tok).rows = st.rows ∧
      (handleVideoFailure now st video msg tok).scheduledRequeues
        = st.scheduledRequeues ++ [(video, RETRY_DELAY_MS)] := by
    intro now st video msg tok r hfind hlt
    constructor
    · cases tok <;>
        simp [handleVideoFailure, hfind, hlt, misboundRetryFieldsUpdate]
    · cases tok <;> simp [handleVideoFailure, hfind, hlt]
  refine ⟨hgen, ?_⟩
  intro n
  induction n with
  | zero => exact ⟨rfl, rfl⟩
  | succ n ih =>
    obtain ⟨ihr, ihq⟩ := ih
    have hfind : getVideoById
        (failureRounds 50 c4St c4Video "boom" (some 7) n).rows
        c4Video.videoId = some c4Row := by
      rw [ihr]
      decide
    have hstep := hgen 50 (failureRounds 50 c4St c4Video "boom" (some 7) n)
      c4Video "boom" (some 7) c4Row hfind (by decide)
    constructor
    · show (handleVideoFailure 50
        (failureRounds 50 c4St c4Video "boom" (some 7) n)
        c4Video "boom" (some 7)).rows = c4St.rows
      rw [hstep.1, ihr]
    · show (handleVideoFailure 50
        (failureRounds 50 c4St c4Video "boom" (some 7) n)
        c4Video "boom" (some 7)).scheduledRequeues.length = n + 1
      rw [hstep.2, List.length_append, ihq]
      rfl

/-- Witness for C4: the first failure of the fresh job writes nothing to
its row and re-enqueues it after 10 seconds. -/
theorem c4_handleVideoFailure_code_bug_witness :
    (handleVideoFailure 50 c4St c4Video "boom" (some 7)).rows = c4St.rows ∧
    (handleVideoFailure 50 c4St c4Video "boom" (some 7)).scheduledRequeues
      = c4St.scheduledRequeues ++ [(c4Video, RETRY_DELAY_MS)] :=
  c4_handleVideoFailure_code_bug.1 50 c4St c4Video "boom" (some 7) c4Row
    (by decide) (by decide)

/-- C8 counterexample: after a one-prompt bulk submission is accepted by
the submission queue, its row still reads `pending` — neither the
bulk-generate handler nor `addToQueue` ever writes a `queued` status, so
the claimed pending-to-queued transition never happens. -/
theorem c8_counterexample :
    ¬ (∀ (now userId idStart : Nat) (prompts : List String) (aspect : String)
        (st : BulkState),
        ∀ qv ∈ (bulkGenerate now userId idStart prompts aspect st).queue,
        ∀ r ∈ (bulkGenerate now userId idStart prompts aspect st).rows,
          r.id = qv.videoId → r.status = "queued") := by
  intro h
  have := h 0 9 4 ["a test prompt"] "landscape" c8EmptyState c8Qv
    (by decide) (mkBulkRow 0 9 4 "a test prompt" "landscape")
    (by decide) (by decide)
  exact absurd this (by decide)

/-- C8 (amended): bulk-submitted jobs are created `pending` and stay
`pending` while held by the submission queue: `addToQueue` writes no
row, and every job the handler enqueues has a row that reads `pending`
immediately after acceptance; the status never passes through a
`queued` value. -/
theorem c8_bulk_pending_amended (now userId idStart : Nat)
    (prompts : List String) (aspect : String) (st : BulkState) :
    (∀ r ∈ (bulkGenerate now userId idStart prompts aspect st).rows,
       r ∈ st.rows ∨ r.status = "pending") ∧
    (∀ (videos : List QueuedVideo) (st0 : BulkState),
       (addToQueue st0 videos).rows = st0.rows) ∧
    (∀ qv ∈ (bulkGenerate now userId idStart prompts aspect st).queue,
       qv ∈ st.queue ∨
       ∃ r ∈ (bulkGenerate now userId idStart prompts aspect st).rows,
         r.id = qv.videoId ∧ r.status = "pending") := by
  refine ⟨?_, fun videos st0 => rfl, ?_⟩
  · intro r hr
    simp only [bulkGenerate, addToQueue, List.mem_append] at hr
    rcases hr with hr | hr
    · exact Or.inl hr
    · right
      obtain ⟨i, hi, rfl⟩ := List.mem_map.mp hr
      rfl
  · intro qv hqv
    simp only [bulkGenerate, addToQueue, List.mem_append] at hqv
    rcases hqv with hqv | hqv
    · exact Or.inl hqv
    · right
      obtain ⟨i, hi, rfl⟩ := List.mem_map.mp hqv
      refine ⟨mkBulkRow now userId (idStart + i) (prompts.getD i "") aspect,
        ?_, rfl, rfl⟩
      simp only [bulkGenerate, addToQueue, List.mem_append]
      right
      exact List.mem_map_of_mem _ hi

/-- Witness for C8: the one-prompt submission's queued job has a row in
the post-state that reads `pending`. -/
theorem c8_bulk_pending_amended_witness :
    c8Qv ∈ c8EmptyState.queue ∨
    ∃ r ∈ (bulkGenerate 0 9 4 ["a test prompt"] "landscape"
        c8EmptyState).rows,
      r.id = c8Qv.videoId ∧ r.status = "pending" :=
  (c8_bulk_pending_amended 0 9 4 ["a test prompt"] "landscape"
    c8EmptyState).2.2 c8Qv (by decide)

/-- Invariant for success-only route traffic: at most one upload per
scene, and none before the scene is cached. -/
theorem routeOnly_upload_inv (sceneId : Nat) :
    ∀ (evs : List CompletionEvent) (st : UploadState),
      (∀ e ∈ evs, ∃ sid, e = CompletionEvent.routeCheck sid true) →
      uploadCount st sceneId ≤ 1 →
      (sceneId ∉ st.cache → uploadCount st sceneId = 0) →
      uploadCount (runCompletions st evs) sceneId ≤ 1 := by
  intro evs
  induction evs with
  | nil => intro st _ h1 _; simpa [runCompletions] using h1
  | cons e evs ih =>
    intro st hall h1 h0
    obtain ⟨sid, rfl⟩ := hall e (List.mem_cons_self e evs)
    have hall2 : ∀ e2 ∈ evs, ∃ sid2, e2 = CompletionEvent.routeCheck sid2 true :=
      fun e2 he2 => hall e2 (List.mem_cons_of_mem _ he2)
    show uploadCount (runCompletions
      (applyCompletion st (CompletionEvent.routeCheck sid true)) evs) sceneId ≤ 1
    by_cases hcached : sid ∈ st.cache
    · rw [show applyCompletion st (CompletionEvent.routeCheck sid true) = st by
        simp [applyCompletion, hcached]]
      exact ih st hall2 h1 h0
    · have happ : applyCompletion st (CompletionEvent.routeCheck sid true) =
          { cache := sid :: st.cache,
            uploadsStarted := st.uploadsStarted ++ [sid] } := by
        simp [applyCompletion, hcached]
      rw [happ]
      by_cases hsid : sid = sceneId
      · subst hsid
        have hc0 : uploadCount st sid = 0 := h0 hcached
        refine ih _ hall2 ?_ ?_
        · simp [uploadCount, List.count_append] at hc0 ⊢
          omega
        · intro hnot
          exact absurd (List.mem_cons_self sid st.cache) hnot
      · have hcount : uploadCount
            ({ cache := sid :: st.cache,
               uploadsStarted := st.uploadsStarted ++ [sid] } : UploadState)
            sceneId = uploadCount st sceneId := by
          have hz : List.count sceneId [sid] = 0 :=
            List.count_eq_zero.mpr (by simp; exact fun h => hsid h.symm)
          simp [uploadCount, List.count_append, hz]
        refine ih _ hall2 (by rw [hcount]; exact h1) ?_
        intro hnot
        rw [hcount]
        exact h0 fun hmem => hnot (List.mem_cons_of_mem _ hmem)

/-- C6 counterexample: a scene completing once through the status-check
route and once through the polling coordinator is uploaded twice — the
coordinator's completion path never consults `cloudinaryUploadCache`. -/
theorem c6_counterexample :
    ¬ (∀ (evs : List CompletionEvent) (sceneId : Nat),
        uploadCount (runCompletions emptyUploadState evs) sceneId ≤ 1) := by
  intro h
  exact absurd (h [CompletionEvent.routeCheck 0 true,
    CompletionEvent.coordinatorComplete 0] 0) (by decide)

/-- C6 (amended): dedup by `cloudinaryUploadCache` holds only within the
status-check route: among route completions whose upload succeeds, at
most one upload is initiated per scene; a route call that finds the
scene cached starts nothing; a failed upload leaves the scene uncached
so a later route call retries; but the polling coordinator's completion
path uploads unconditionally, so cross-path completions can upload the
same scene twice. -/
theorem c6_upload_dedup_amended :
    (∀ (evs : List CompletionEvent) (sceneId : Nat),
       (∀ e ∈ evs, ∃ sid, e = CompletionEvent.routeCheck sid true) →
       uploadCount (runCompletions emptyUploadState evs) sceneId ≤ 1) ∧
    (∀ (st : UploadState) (sceneId : Nat) (ok : Bool), sceneId ∈ st.cache →
       applyCompletion st (CompletionEvent.routeCheck sceneId ok) = st) ∧
    (∀ (st : UploadState) (sceneId : Nat), sceneId ∉ st.cache →
       (applyCompletion st (CompletionEvent.routeCheck sceneId false)).cache
         = st.cache) ∧
    (∀ (st : UploadState) (sceneId : Nat),
       uploadCount
         (applyCompletion st (CompletionEvent.coordinatorComplete sceneId))
         sceneId = uploadCount st sceneId + 1) := by
  refine ⟨?_, ?_, ?_, ?_⟩
  · intro evs sceneId hall
    exact routeOnly_upload_inv sceneId evs emptyUploadState hall
      (by simp [uploadCount, emptyUploadState])
      (by simp [uploadCount, emptyUploadState])
  · intro st sceneId ok hmem
    simp [applyCompletion, hmem]
  · intro st sceneId hmem
    simp [applyCompletion, hmem]
  · intro st sceneId
    simp [applyCompletion, uploadCount, List.count_append]

/-- Witness for C6 (amended): two successful route completions of the
same scene initiate at most one upload. -/
theorem c6_upload_dedup_amended_witness :
    uploadCount (runCompletions emptyUploadState
      [CompletionEvent.routeCheck 0 true, CompletionEvent.routeCheck 0 true])
      0 ≤ 1 :=
  c6_upload_dedup_amended.1
    [CompletionEvent.routeCheck 0 true, CompletionEvent.routeCheck 0 true] 0
    (by
      intro e he
      simp only [List.mem_cons, List.mem_singleton] at he
      rcases he with rfl | rfl | h
      · exact ⟨0, rfl⟩
      · exact ⟨0, rfl⟩
      · exact absurd h (List.not_mem_nil e))

/-- C7 counterexample: the regenerate endpoint sets a `completed` row
back to `pending` — a terminal status is mutated by an operation of the
system, refuting absorption. -/
theorem c7_counterexample :
    ¬ (∀ (now : Nat) (rows : List VideoRow) (videoId : Nat) (op : RowOp),
        ∀ r ∈ rows, r.id = videoId → isTerminal r.status = true →
        ∀ r2 ∈ applyRowOp now rows videoId op, r2.id = videoId →
          r2.status = r.status ∧ r2.videoUrl = r.videoUrl) := by
  intro h
  have := h 1 [c7Row] 3 (RowOp.regenerate 8) c7Row (by decide) (by decide)
    (by decide) c7RowAfter (by decide) (by decide)
  exact absurd this.1 (by decide)

/-- C7 (amended): `completed`/`failed` are not absorbing.  Only the
heartbeat touch preserves `status`, `videoUrl`, `errorMessage` and
`retryCount` of every row; the regenerate endpoint rewrites any matching
row — terminal or not — to `pending` (keeping its stored URL), and the
PATCH endpoint writes whatever status it is handed, regardless of the
current one. -/
theorem c7_terminal_not_absorbing_amended (now : Nat) (rows : List VideoRow)
    (videoId : Nat) :
    (List.Forall₂ (fun r r2 => r2.status = r.status ∧ r2.videoUrl = r.videoUrl ∧
        r2.errorMessage = r.errorMessage ∧ r2.retryCount = r.retryCount)
      rows (applyRowOp now rows videoId RowOp.heartbeat)) ∧
    (∀ (uid : Nat) (r : VideoRow), r ∈ rows → r.id = videoId →
      r.userId = uid →
      ∃ r2 ∈ applyRowOp now rows videoId (RowOp.regenerate uid),
        r2.id = r.id ∧ r2.status = "pending" ∧ r2.videoUrl = r.videoUrl) ∧
    (∀ (uid : Nat) (snew : String) (vu : Option String) (tk : Option Nat)
       (r : VideoRow), r ∈ rows → r.id = videoId → r.userId = uid →
      ∃ r2 ∈ applyRowOp now rows videoId (RowOp.patchRow uid (some snew) vu tk),
        r2.id = r.id ∧ r2.status = snew) := by
  refine ⟨?_, ?_, ?_⟩
  · show List.Forall₂ _ rows
      ((updateVideoHistoryFields now rows videoId none {}).2)
    simp only [updateVideoHistoryFields]
    rw [List.forall₂_map_right_iff]
    rw [List.forall₂_same]
    intro r hr
    by_cases hm : r.id = videoId ∧ (∀ u ∈ (none : Option Nat), r.userId = u)
    · rw [if_pos hm]
      simp [applyPatch]
    · rw [if_neg hm]
      exact ⟨rfl, rfl, rfl, rfl⟩
  · intro uid r hr hid huid
    refine ⟨_, mem_updateVideoHistoryStatus_target now rows videoId uid
      "pending" none none r hr hid huid, rfl, rfl, ?_⟩
    simp [truthyStr]
  · intro uid snew vu tk r hr hid huid
    refine ⟨applyPatch now
      { status := some snew, videoUrl := vu, tokenUsed := tk.map some } r,
      mem_updateVideoHistoryFields_target now rows videoId (some uid)
        _ r hr hid (by simpa using huid), rfl, rfl⟩

/-- Witness for C7 (amended): regenerating the concrete completed row
yields a `pending` row that keeps its hosted URL. -/
theorem c7_terminal_not_absorbing_amended_witness :
    ∃ r2 ∈ applyRowOp 1 [c7Row] 3 (RowOp.regenerate 8),
      r2.id = c7Row.id ∧ r2.status = "pending" ∧
      r2.videoUrl = c7Row.videoUrl :=
  (c7_terminal_not_absorbing_amended 1 [c7Row] 3).2.1 8 c7Row
    (by decide) (by decide) (by decide)

/-- The answer of the lazy cooldown check is the pure reading. -/
theorem isTokenInCooldown_fst (now : Nat) (s : PoolState) (k : Nat) :
    (isTokenInCooldown now s k).1 = inCooldownP now s k := by
  cases hl : lookupA s.cooldowns k with
  | none => simp [isTokenInCooldown, inCooldownP, hl]
  | some e =>
    by_cases he : e ≤ now
    · simp [isTokenInCooldown, inCooldownP, hl, he]
      try omega
    · simp [isTokenInCooldown, inCooldownP, hl, he]
      try omega

/-- The lazy cooldown check never touches the token table or the
settings row. -/
theorem isTokenInCooldown_frame (now : Nat) (s : PoolState) (k : Nat) :
    (isTokenInCooldown now s k).2.tokens = s.tokens ∧
    (isTokenInCooldown now s k).2.settings = s.settings := by
  cases hl : lookupA s.cooldowns k with
  | none => simp [isTokenInCooldown, hl]
  | some e =>
    by_cases he : e ≤ now
    · simp [isTokenInCooldown, hl, he]
    · simp [isTokenInCooldown, hl, he]

/-- Deleting a key from a map hides exactly that key. -/
theorem lookupA_delA {α : Type} (m : List (Nat × α)) (k k2 : Nat) :
    lookupA (delA m k) k2 = if k2 = k then none else lookupA m k2 := by
  induction m with
  | nil => simp [lookupA, delA]
  | cons kv m ih =>
    simp only [delA]
    by_cases h1 : kv.1 = k
    · rw [if_pos h1, ih]
      by_cases h2 : k2 = k
      · simp [h2]
      · have hkv : ¬ kv.1 = k2 := by rw [h1]; exact fun hc => h2 hc.symm
        simp [lookupA, hkv, h2]
    · rw [if_neg h1]
      by_cases h2 : k2 = k
      · subst h2
        have : ¬ kv.1 = k2 := h1
        simp [lookupA, this, ih]
      · by_cases h3 : kv.1 = k2
        · simp [lookupA, h3, h2]
        · simp [lookupA, h3, ih, h2]

/-- Setting a key overrides exactly that key. -/
theorem lookupA_setA {α : Type} (m : List (Nat × α)) (k k2 : Nat) (v : α) :
    lookupA (setA m k v) k2 = if k2 = k then some v else lookupA m k2 := by
  simp only [setA, lookupA]
  by_cases h : k = k2
  · simp [h]
  · have h2 : ¬ k2 = k := fun hc => h hc.symm
    rw [if_neg h, if_neg h2, lookupA_delA, if_neg h2]

/-- The lazy expiry performed by a cooldown check does not change the
pure cooldown reading of any key at the same instant. -/
theorem inCooldownP_after_check (now : Nat) (s : PoolState) (k k2 : Nat) :
    inCooldownP now (isTokenInCooldown now s k).2 k2 = inCooldownP now s k2 := by
  cases hl : lookupA s.cooldowns k with
  | none => simp [isTokenInCooldown, hl]
  | some e =>
    by_cases he : e ≤ now
    · simp only [isTokenInCooldown, hl, he, if_true, if_pos he]
      simp only [inCooldownP, lookupA_delA]
      by_cases h2 : k2 = k
      · subst h2
        rw [hl]
        simp
        omega
      · rw [if_neg h2]
    · simp [isTokenInCooldown, hl, he]

/-- The cooldown filter of the batch dispenser computes the pure
filter against the starting maps. -/
theorem filterCooldown_fst (now : Nat) :
    ∀ (ts : List ApiToken) (s : PoolState),
      (filterCooldown now ts s).1 =
        ts.filter fun t => ! inCooldownP now s t.id := by
  intro ts
  induction ts with
  | nil => intro s; simp [filterCooldown]
  | cons t ts ih =>
    intro s
    simp only [filterCooldown, List.filter_cons]
    rw [isTokenInCooldown_fst, ih]
    have hcongr : ts.filter
        (fun x => ! inCooldownP now (isTokenInCooldown now s t.id).2 x.id) =
        ts.filter (fun x => ! inCooldownP now s x.id) := by
      apply List.filter_congr
      intro x _
      rw [inCooldownP_after_check]
    rw [hcongr]
    by_cases hc : inCooldownP now s t.id = true
    · simp [hc]
    · rw [Bool.not_eq_true] at hc
      simp [hc]

/-- The cooldown filter never touches the token table or the settings
row. -/
theorem filterCooldown_frame (now : Nat) :
    ∀ (ts : List ApiToken) (s : PoolState),
      (filterCooldown now ts s).2.tokens = s.tokens ∧
      (filterCooldown now ts s).2.settings = s.settings := by
  intro ts
  induction ts with
  | nil => intro s; exact ⟨rfl, rfl⟩
  | cons t ts ih =>
    intro s
    simp only [filterCooldown]
    constructor
    · rw [(ih _).1, (isTokenInCooldown_frame now s t.id).1]
    · rw [(ih _).2, (isTokenInCooldown_frame now s t.id).2]

/-- With distinct ids, looking a member token up by id finds it. -/
theorem findTok_eq_of_nodup :
    ∀ (ts : List ApiToken), (ts.map ApiToken.id).Nodup →
      ∀ t ∈ ts, findTok ts t.id = some t := by
  intro ts
  induction ts with
  | nil => intro _ t ht; exact absurd ht (List.not_mem_nil t)
  | cons a as ih =>
    intro hnd t ht
    by_cases ha : a.id = t.id
    · rcases List.mem_cons.mp ht with rfl | hmem
      · simp [findTok, List.find?_cons_of_pos, ha]
      · exfalso
        have : a.id ∈ as.map ApiToken.id := by
          rw [ha]; exact List.mem_map_of_mem _ hmem
        exact (List.nodup_cons.mp (by simpa using hnd)).1 this
    · rcases List.mem_cons.mp ht with rfl | hmem
      · exact absurd rfl ha
      · have htail := ih (List.nodup_cons.mp (by simpa using hnd)).2 t hmem
        simpa [findTok, List.find?_cons_of_neg, ha] using htail

/-- Updating a row by id and then fetching that id fetches the updated
row, provided the update keeps the id. -/
theorem findTok_updateTok_self (ts : List ApiToken) (k : Nat)
    (f : ApiToken → ApiToken) (hf : ∀ t, (f t).id = t.id) :
    findTok (updateTok ts k f) k = (findTok ts k).map f := by
  induction ts with
  | nil => rfl
  | cons a as ih =>
    simp only [updateTok, List.map_cons] at ih ⊢
    by_cases ha : a.id = k
    · rw [if_pos ha]
      have hfa : (f a).id = k := by rw [hf a, ha]
      simp [findTok, List.find?_cons_of_pos, ha, hfa]
    · rw [if_neg ha]
      have hfa : ¬ (f a).id = k := by rw [hf a]; exact ha
      simpa [findTok, List.find?_cons_of_neg, ha] using ih

/-- Updating one id leaves fetches of any other id unchanged, provided
the update keeps the id. -/
theorem findTok_updateTok_ne (ts : List ApiToken) (k k2 : Nat)
    (f : ApiToken → ApiToken) (hf : ∀ t, (f t).id = t.id) (hne : k2 ≠ k) :
    findTok (updateTok ts k f) k2 = findTok ts k2 := by
  induction ts with
  | nil => rfl
  | cons a as ih =>
    simp only [updateTok, List.map_cons] at ih ⊢
    by_cases ha : a.id = k
    · rw [if_pos ha]
      have hfa : ¬ (f a).id = k2 := by
        rw [hf a, ha]; exact fun hc => hne hc.symm
      have haa : ¬ a.id = k2 := by
        rw [ha]; exact fun hc => hne hc.symm
      simpa [findTok, List.find?_cons_of_neg, hfa, haa] using ih
    · rw [if_neg ha]
      by_cases ha2 : a.id = k2
      · simp [findTok, List.find?_cons_of_pos, ha2]
      · simpa [findTok, List.find?_cons_of_neg, ha2] using ih

/-- C1: dispense semantics of `getCurrentBatchToken`.  With settings
present and a nonempty pool of active, non-cooldown tokens `avail`, let
`cur` be the cursor slot `avail[lastUsedTokenIndex % len]`.  If its
batch is not full the dispense returns `cur` with both counters bumped
and the cursor untouched; if `cur.currentBatchCount ≥ BATCH_SIZE` the
dispense resets `cur`'s counter to 0, advances the cursor to
`(lastUsedTokenIndex + 1) % len`, persists it, and returns the next
slot's token with its counter bumped.  In scenario S2 the first dispense
returns token 1 with count 100 and the second resets it to 0, moves the
cursor, and returns token 2 with count 1. -/
theorem c1_getCurrentBatchToken_spec
    (now : Nat) (s : PoolState) (st : TokenSettings)
    (avail : List ApiToken) (cur : ApiToken)
    (hset : s.settings = some st)
    (hnodup : (s.tokens.map ApiToken.id).Nodup)
    (havail : (s.tokens.filter fun t => t.isActive).filter
        (fun t => ! inCooldownP now s t.id) = avail)
    (hcur : avail.get? (st.lastUsedTokenIndex % avail.length) = some cur) :
    (cur.currentBatchCount < BATCH_SIZE →
      ∃ s2, getCurrentBatchToken now s =
        (some { cur with
            currentBatchCount := cur.currentBatchCount + 1
            totalGenerated := cur.totalGenerated + 1
            batchStartedAt := some (cur.batchStartedAt.getD now)
            lastUsedAt := some now }, s2) ∧
        s2.settings = some st) ∧
    (∀ nxt : ApiToken, BATCH_SIZE ≤ cur.currentBatchCount →
      avail.get? ((st.lastUsedTokenIndex + 1) % avail.length) = some nxt →
      nxt.id ≠ cur.id →
      ∃ s2, getCurrentBatchToken now s =
        (some { nxt with
            currentBatchCount := nxt.currentBatchCount + 1
            totalGenerated := nxt.totalGenerated + 1
            batchStartedAt := some now
            lastUsedAt := some now }, s2) ∧
        s2.settings = some { lastUsedTokenIndex :=
          (st.lastUsedTokenIndex + 1) % avail.length } ∧
        findTok s2.tokens cur.id = some { cur with currentBatchCount := 0 }) ∧
    ((getCurrentBatchToken 5 s2State).1 = some s2TokAOut ∧
     (getCurrentBatchToken 6 (getCurrentBatchToken 5 s2State).2).1 =
        some s2TokBOut ∧
     (findTok (getCurrentBatchToken 6
        (getCurrentBatchToken 5 s2State).2).2.tokens 1).map
          ApiToken.currentBatchCount = some 0 ∧
     (getCurrentBatchToken 6 (getCurrentBatchToken 5 s2State).2).2.settings =
        some { lastUsedTokenIndex := 1 }) := by
  have hcur_mem : cur ∈ avail := by
    have := List.get?_eq_some.mp hcur
    obtain ⟨hlt, hget⟩ := this
    rw [← hget]
    exact List.get_mem avail _ hlt
  have hlen : 0 < avail.length := by
    obtain ⟨hlt, -⟩ := List.get?_eq_some.mp hcur
    omega
  have hcur_tokens : cur ∈ s.tokens := by
    have h1 : cur ∈ (s.tokens.filter fun t => t.isActive) :=
      List.mem_of_mem_filter (by rw [havail]; exact hcur_mem)
    exact List.mem_of_mem_filter h1
  have hfind : findTok s.tokens cur.id = some cur :=
    findTok_eq_of_nodup s.tokens hnodup cur hcur_tokens
  have hactlen : ¬ (s.tokens.filter fun t => t.isActive).length = 0 := by
    have := List.length_filter_le (fun t => ! inCooldownP now s t.id)
      (s.tokens.filter fun t => t.isActive)
    rw [havail] at this
    omega
  have hfc1 : (filterCooldown now (s.tokens.filter fun t => t.isActive) s).1
      = avail := by
    rw [filterCooldown_fst, havail]
  have hfc2t : (filterCooldown now
      (s.tokens.filter fun t => t.isActive) s).2.tokens = s.tokens :=
    (filterCooldown_frame now _ s).1
  have hfc2s : (filterCooldown now
      (s.tokens.filter fun t => t.isActive) s).2.settings = s.settings :=
    (filterCooldown_frame now _ s).2
  refine ⟨?_, ?_, by decide⟩
  · intro hlt
    have hnotfull : ¬ BATCH_SIZE ≤ cur.currentBatchCount := by omega
    have heq : getCurrentBatchToken now s =
        (some { cur with
            currentBatchCount := cur.currentBatchCount + 1
            totalGenerated := cur.totalGenerated + 1
            batchStartedAt := some (cur.batchStartedAt.getD now)
            lastUsedAt := some now },
         { (filterCooldown now (s.tokens.filter fun t => t.isActive) s).2 with
           tokens := updateTok s.tokens cur.id fun t =>
             { t with
               currentBatchCount := t.currentBatchCount + 1
               totalGenerated := t.totalGenerated + 1
               batchStartedAt := some (cur.batchStartedAt.getD now)
               lastUsedAt := some now } }) := by
      simp only [getCurrentBatchToken, hset]
      rw [if_neg hactlen]
      rw [hfc1]
      rw [if_neg (by omega : ¬ avail.length = 0)]
      simp only [hcur]
      rw [hfc2t]
      simp only [hfind]
      rw [if_neg hnotfull]
      rw [findTok_updateTok_self s.tokens cur.id
            (fun t => { t with
                          currentBatchCount := t.currentBatchCount + 1
                          totalGenerated := t.totalGenerated + 1
                          batchStartedAt := some (cur.batchStartedAt.getD now)
                          lastUsedAt := some now })
            (fun t => rfl),
          hfind]
      rfl
    exact ⟨_, heq, hfc2s.trans hset⟩
  · intro nxt hfull hnxt hne
    have hnxt_mem : nxt ∈ avail := by
      obtain ⟨hlt2, hget2⟩ := List.get?_eq_some.mp hnxt
      rw [← hget2]
      exact List.get_mem avail _ hlt2
    have hnxt_tokens : nxt ∈ s.tokens := by
      have h1 : nxt ∈ (s.tokens.filter fun t => t.isActive) :=
        List.mem_of_mem_filter (by rw [havail]; exact hnxt_mem)
      exact List.mem_of_mem_filter h1
    have hfindn : findTok s.tokens nxt.id = some nxt :=
      findTok_eq_of_nodup s.tokens hnodup nxt hnxt_tokens
    have hfindnA : findTok
        (updateTok s.tokens cur.id fun t => { t with currentBatchCount := 0 })
        nxt.id = some nxt := by
      rw [findTok_updateTok_ne s.tokens cur.id nxt.id
            (fun t => { t with currentBatchCount := 0 }) (fun t => rfl) hne]
      exact hfindn
    have heq : getCurrentBatchToken now s =
        (some { nxt with
            currentBatchCount := nxt.currentBatchCount + 1
            totalGenerated := nxt.totalGenerated + 1
            batchStartedAt := some now
            lastUsedAt := some now },
         { (filterCooldown now (s.tokens.filter fun t => t.isActive) s).2 with
           tokens := updateTok
             (updateTok s.tokens cur.id fun t =>
               { t with currentBatchCount := 0 })
             nxt.id fun t =>
               { t with
                 currentBatchCount := t.currentBatchCount + 1
                 totalGenerated := t.totalGenerated + 1
                 batchStartedAt := some now
                 lastUsedAt := some now }
           settings := some { lastUsedTokenIndex :=
             (st.lastUsedTokenIndex + 1) % avail.length } }) := by
      simp only [getCurrentBatchToken, hset]
      rw [if_neg hactlen]
      rw [hfc1]
      rw [if_neg (by omega : ¬ avail.length = 0)]
      simp only [hcur]
      rw [hfc2t]
      simp only [hfind]
      rw [if_pos hfull]
      simp only [hnxt]
      simp only [hfindnA]
      rw [findTok_updateTok_self
            (updateTok s.tokens cur.id fun t =>
              { t with currentBatchCount := 0 })
            nxt.id
            (fun t => { t with
                          currentBatchCount := t.currentBatchCount + 1
                          totalGenerated := t.totalGenerated + 1
                          batchStartedAt := some now
                          lastUsedAt := some now })
            (fun t => rfl),
          hfindnA]
      rfl
    refine ⟨_, heq, rfl, ?_⟩
    show findTok (updateTok
        (updateTok s.tokens cur.id fun t => { t with currentBatchCount := 0 })
        nxt.id fun t =>
          { t with
              currentBatchCount := t.currentBatchCount + 1
              totalGenerated := t.totalGenerated + 1
              batchStartedAt := some now
              lastUsedAt := some now }) cur.id
      = some { cur with currentBatchCount := 0 }
    rw [findTok_updateTok_ne
          (updateTok s.tokens cur.id fun t => { t with currentBatchCount := 0 })
          nxt.id cur.id
          (fun t => { t with
                        currentBatchCount := t.currentBatchCount + 1
                        totalGenerated := t.totalGenerated + 1
                        batchStartedAt := some now
                        lastUsedAt := some now })
          (fun t => rfl)
          (fun hc => hne hc.symm)]
    rw [findTok_updateTok_self s.tokens cur.id
          (fun t => { t with currentBatchCount := 0 }) (fun t => rfl),
        hfind]
    rfl

/-- Witness for C1: the first S2 dispense — token 1 at count 99 comes
back with count 100 and the cursor stays at 0. -/
theorem c1_getCurrentBatchToken_spec_witness :
    ∃ s2, getCurrentBatchToken 5 s2State = (some s2TokAOut, s2) ∧
      s2.settings = some { lastUsedTokenIndex := 0 } :=
  (c1_getCurrentBatchToken_spec 5 s2State { lastUsedTokenIndex := 0 }
    [s2TokA, s2TokB] s2TokA rfl (by decide) (by decide) (by decide)).1
    (by decide)

/-- A row found by id has that id. -/
theorem findTok_id (ts : List ApiToken) (k : Nat) (t : ApiToken) :
    findTok ts k = some t → t.id = k := by
  intro h
  have := List.find?_some h
  simpa using this

/-- Any token the rotation scan returns passed its cooldown check, read
against the starting maps. -/
theorem scanRotation_not_cooldown (now : Nat) :
    ∀ (l : List ApiToken) (s0 s : PoolState) (tok : ApiToken) (s2 : PoolState),
      (∀ k, inCooldownP now s0 k = inCooldownP now s k) →
      scanRotation now l s0 = (some tok, s2) →
      inCooldownP now s tok.id = false := by
  intro l
  induction l with
  | nil =>
    intro s0 s tok s2 _ h
    simp [scanRotation] at h
  | cons t ts ih =>
    intro s0 s tok s2 hinv h
    have hinv2 : ∀ k, inCooldownP now (isTokenInCooldown now s0 t.id).2 k =
        inCooldownP now s k :=
      fun k => (inCooldownP_after_check now s0 t.id k).trans (hinv k)
    by_cases hb : (isTokenInCooldown now s0 t.id).1 = true
    · simp only [scanRotation, hb, if_true] at h
      exact ih _ s tok s2 hinv2 h
    · rw [Bool.not_eq_true] at hb
      by_cases hcnt : ERROR_THRESHOLD - 1 ≤
          getRecentErrorCount now (isTokenInCooldown now s0 t.id).2 t.id
      · simp only [scanRotation, hb, if_false, hcnt, if_true, if_pos hcnt] at h
        exact ih _ s tok s2 hinv2 h
      · simp only [scanRotation, hb, if_false, if_neg hcnt] at h
        obtain ⟨rfl, -⟩ : t = tok ∧ _ := by
          constructor
          · exact Option.some.inj (congrArg Prod.fst h)
          · exact trivial
        rw [← hinv t.id, ← isTokenInCooldown_fst]
        exact hb

/-- C3: error recording and cooldown semantics.  `recordTokenError`
stores the pruned window (old entries plus the current instant, entries
at least 20 minutes old dropped) and sets a 2-hour cooldown exactly when
the window holds at least `ERROR_THRESHOLD = 10` entries.
`isTokenInCooldown` answers true exactly when a cooldown end is recorded
and `now` is before it; an expired entry is removed together with the
token's whole error history.  Recording the 10th error in the window
makes the token report in-cooldown until the 2 hours pass, and neither
dispense mode ever returns a token whose cooldown test reads true. -/
theorem c3_error_cooldown_spec :
    (∀ (now : Nat) (s : PoolState) (tokenId : Nat),
       lookupA (recordTokenError now s tokenId).errorLog tokenId =
         some ((((lookupA s.errorLog tokenId).getD []) ++ [now]).filter
           fun ts => now - ts < ERROR_WINDOW_MS) ∧
       (ERROR_THRESHOLD ≤
           ((((lookupA s.errorLog tokenId).getD []) ++ [now]).filter
             fun ts => now - ts < ERROR_WINDOW_MS).length →
         lookupA (recordTokenError now s tokenId).cooldowns tokenId =
           some (now + COOLDOWN_DURATION_MS)) ∧
       (((((lookupA s.errorLog tokenId).getD []) ++ [now]).filter
           fun ts => now - ts < ERROR_WINDOW_MS).length < ERROR_THRESHOLD →
         (recordTokenError now s tokenId).cooldowns = s.cooldowns)) ∧
    (∀ (now : Nat) (s : PoolState) (tokenId : Nat),
       ((isTokenInCooldown now s tokenId).1 = true ↔
         ∃ e, lookupA s.cooldowns tokenId = some e ∧ now < e) ∧
       (∀ e, lookupA s.cooldowns tokenId = some e → e ≤ now →
         lookupA (isTokenInCooldown now s tokenId).2.cooldowns tokenId = none ∧
         lookupA (isTokenInCooldown now s tokenId).2.errorLog tokenId = none)) ∧
    (∀ (now : Nat) (s : PoolState) (tokenId : Nat),
       ERROR_THRESHOLD - 1 ≤ getRecentErrorCount now s tokenId →
       ∀ now2, now ≤ now2 → now2 < now + COOLDOWN_DURATION_MS →
         (isTokenInCooldown now2 (recordTokenError now s tokenId) tokenId).1
           = true) ∧
    (∀ (now : Nat) (s : PoolState) (tok : ApiToken) (s2 : PoolState),
       getCurrentBatchToken now s = (some tok, s2) →
       inCooldownP now s tok.id = false) ∧
    (∀ (now : Nat) (s : PoolState) (tok : ApiToken) (s2 : PoolState),
       getNextRotationToken now s = (some tok, s2) →
       inCooldownP now s tok.id = false) := by
  have hrec : ∀ (now : Nat) (s : PoolState) (tokenId : Nat),
      lookupA (recordTokenError now s tokenId).errorLog tokenId =
        some ((((lookupA s.errorLog tokenId).getD []) ++ [now]).filter
          fun ts => now - ts < ERROR_WINDOW_MS) ∧
      (ERROR_THRESHOLD ≤
          ((((lookupA s.errorLog tokenId).getD []) ++ [now]).filter
            fun ts => now - ts < ERROR_WINDOW_MS).length →
        lookupA (recordTokenError now s tokenId).cooldowns tokenId =
          some (now + COOLDOWN_DURATION_MS)) ∧
      (((((lookupA s.errorLog tokenId).getD []) ++ [now]).filter
          fun ts => now - ts < ERROR_WINDOW_MS).length < ERROR_THRESHOLD →
        (recordTokenError now s tokenId).cooldowns = s.cooldowns) := by
    intro now s tokenId
    refine ⟨?_, ?_, ?_⟩
    · simp only [recordTokenError]
      split
      · simp [lookupA_setA]
      · simp [lookupA_setA]
    · intro hth
      simp only [recordTokenError]
      rw [if_pos hth]
      simp [lookupA_setA]
    · intro hlt
      simp only [recordTokenError]
      rw [if_neg (by omega)]
  refine ⟨hrec, ?_, ?_, ?_, ?_⟩
  · intro now s tokenId
    constructor
    · rw [isTokenInCooldown_fst]
      simp only [inCooldownP]
      cases hl : lookupA s.cooldowns tokenId with
      | none => simp
      | some e => simp
    · intro e hl he
      simp only [isTokenInCooldown, hl]
      rw [if_pos he]
      simp [lookupA_delA]
  · intro now s tokenId hcnt now2 hle hlt
    have hlen : ERROR_THRESHOLD ≤
        ((((lookupA s.errorLog tokenId).getD []) ++ [now]).filter
          fun ts => now - ts < ERROR_WINDOW_MS).length := by
      rw [List.filter_append]
      rw [List.length_append]
      have hnow : ([now].filter fun ts => now - ts < ERROR_WINDOW_MS)
          = [now] := by
        simp [ERROR_WINDOW_MS]
      rw [hnow]
      have := hcnt
      simp only [getRecentErrorCount] at this
      simp
      omega
    have hcool := ((hrec now s tokenId).2.1) hlen
    rw [isTokenInCooldown_fst]
    simp only [inCooldownP, hcool]
    simp
    omega
  · intro now s tok s2 h
    cases hset : s.settings with
    | none =>
      simp only [getCurrentBatchToken, hset] at h
      exact absurd (congrArg Prod.fst h) (by simp)
    | some st =>
      simp only [getCurrentBatchToken, hset] at h
      by_cases hact : (s.tokens.filter fun t => t.isActive).length = 0
      · rw [if_pos hact] at h
        exact absurd (congrArg Prod.fst h) (by simp)
      · rw [if_neg hact] at h
        by_cases hav : (filterCooldown now
            (s.tokens.filter fun t => t.isActive) s).1.length = 0
        · rw [if_pos hav] at h
          exact absurd (congrArg Prod.fst h) (by simp)
        · rw [if_neg hav] at h
          cases hget : (filterCooldown now
              (s.tokens.filter fun t => t.isActive) s).1.get?
              (st.lastUsedTokenIndex % (filterCooldown now
                (s.tokens.filter fun t => t.isActive) s).1.length) with
          | none =>
            rw [hget] at h
            exact absurd (congrArg Prod.fst h) (by simp)
          | some slot =>
            have hslot : inCooldownP now s slot.id = false := by
              have hmem : slot ∈ (filterCooldown now
                  (s.tokens.filter fun t => t.isActive) s).1 := by
                obtain ⟨hlt2, hget2⟩ := List.get?_eq_some.mp hget
                rw [← hget2]
                exact List.get_mem _ _ hlt2
              rw [filterCooldown_fst] at hmem
              have := (List.mem_filter.mp hmem).2
              simpa using this
            rw [hget] at h
            simp only at h
            cases hfindc : findTok (filterCooldown now
                (s.tokens.filter fun t => t.isActive) s).2.tokens slot.id with
            | none =>
              rw [hfindc] at h
              exact absurd (congrArg Prod.fst h) (by simp)
            | some curTok =>
              have hcurid : curTok.id = slot.id := findTok_id _ _ _ hfindc
              rw [hfindc] at h
              simp only at h
              by_cases hfull : BATCH_SIZE ≤ curTok.currentBatchCount
              · rw [if_pos hfull] at h
                cases hget2 : (filterCooldown now
                    (s.tokens.filter fun t => t.isActive) s).1.get?
                    ((st.lastUsedTokenIndex + 1) % (filterCooldown now
                      (s.tokens.filter fun t => t.isActive) s).1.length) with
                | none =>
                  rw [hget2] at h
                  exact absurd (congrArg Prod.fst h) (by simp)
                | some nxtSlot =>
                  have hnslot : inCooldownP now s nxtSlot.id = false := by
                    have hmem : nxtSlot ∈ (filterCooldown now
                        (s.tokens.filter fun t => t.isActive) s).1 := by
                      obtain ⟨hlt2, hget3⟩ := List.get?_eq_some.mp hget2
                      rw [← hget3]
                      exact List.get_mem _ _ hlt2
                    rw [filterCooldown_fst] at hmem
                    have := (List.mem_filter.mp hmem).2
                    simpa using this
                  rw [hget2] at h
                  simp only at h
                  cases hfindn : findTok (updateTok (filterCooldown now
                      (s.tokens.filter fun t => t.isActive) s).2.tokens
                      curTok.id fun t => { t with currentBatchCount := 0 })
                      nxtSlot.id with
                  | none =>
                    rw [hfindn] at h
                    exact absurd (congrArg Prod.fst h) (by simp)
                  | some nxtTok =>
                    rw [hfindn] at h
                    simp only at h
                    have hfst := congrArg Prod.fst h
                    simp only at hfst
                    cases hres : findTok (updateTok (updateTok (filterCooldown
                        now (s.tokens.filter fun t => t.isActive) s).2.tokens
                        curTok.id fun t => { t with currentBatchCount := 0 })
                        nxtSlot.id fun t =>
                          { t with
                            currentBatchCount := t.currentBatchCount + 1
                            totalGenerated := t.totalGenerated + 1
                            batchStartedAt := some now
                            lastUsedAt := some now }) nxtSlot.id with
                    | none =>
                      rw [hres] at hfst
                      exact absurd hfst (by simp)
                    | some resTok =>
                      rw [hres] at hfst
                      have : resTok = tok := Option.some.inj hfst
                      subst this
                      rw [findTok_id _ _ _ hres]
                      exact hnslot
              · rw [if_neg hfull] at h
                have hfst := congrArg Prod.fst h
                simp only at hfst
                cases hres : findTok (updateTok (filterCooldown now
                    (s.tokens.filter fun t => t.isActive) s).2.tokens
                    curTok.id fun t =>
                      { t with
                        currentBatchCount := t.currentBatchCount + 1
                        totalGenerated := t.totalGenerated + 1
                        batchStartedAt :=
                          some (curTok.batchStartedAt.getD now)
                        lastUsedAt := some now }) curTok.id with
                | none =>
                  rw [hres] at hfst
                  exact absurd hfst (by simp)
                | some resTok =>
                  rw [hres] at hfst
                  have : resTok = tok := Option.some.inj hfst
                  subst this
                  rw [findTok_id _ _ _ hres, hcurid]
                  exact hslot
  · intro now s tok s2 h
    exact scanRotation_not_cooldown now _ s s tok s2 (fun k => rfl) h

/-- Witness for C3: with nine errors at instants 0..8, recording the
10th at instant 9 puts token 5 in cooldown, still active at instant
1000. -/
theorem c3_error_cooldown_spec_witness :
    (isTokenInCooldown 1000 (recordTokenError 9 c3State 5) 5).1 = true :=
  c3_error_cooldown_spec.2.2.1 9 c3State 5 (by decide) 1000 (by decide)
    (by decide)

/-- The rotation scan never touches the token table. -/
theorem scanRotation_tokens (now : Nat) :
    ∀ (l : List ApiToken) (s : PoolState),
      (scanRotation now l s).2.tokens = s.tokens := by
  intro l
  induction l with
  | nil => intro s; rfl
  | cons t ts ih =>
    intro s
    by_cases hb : (isTokenInCooldown now s t.id).1 = true
    · simp only [scanRotation, hb, if_true]
      rw [ih, (isTokenInCooldown_frame now s t.id).1]
    · rw [Bool.not_eq_true] at hb
      by_cases hcnt : ERROR_THRESHOLD - 1 ≤
          getRecentErrorCount now (isTokenInCooldown now s t.id).2 t.id
      · simp only [scanRotation, hb, if_pos hcnt, ite_self]
        rw [ih, (isTokenInCooldown_frame now s t.id).1]
      · simp only [scanRotation, hb, Bool.false_eq_true, if_false, if_neg hcnt]
        exact (isTokenInCooldown_frame now s t.id).1

/-- Mapping a list relates it pointwise to its image. -/
theorem forall₂_map_self {α : Type} {R : α → α → Prop} (f : α → α)
    (hf : ∀ x, R x (f x)) : ∀ l : List α, List.Forall₂ R l (l.map f) := by
  intro l
  induction l with
  | nil => exact List.Forall₂.nil
  | cons a as ih => exact List.Forall₂.cons (hf a) ih

/-- One batch dispense moves every token's counter to at most its old
value plus one (resets aside). -/
theorem getCurrentBatchToken_counter_step (now : Nat) (s : PoolState) :
    List.Forall₂ (fun t t2 => t2.currentBatchCount ≤ t.currentBatchCount + 1)
      s.tokens (getCurrentBatchToken now s).2.tokens := by
  have hrefl : ∀ (l : List ApiToken),
      List.Forall₂ (fun t t2 => t2.currentBatchCount ≤ t.currentBatchCount + 1)
        l l :=
    fun l => List.forall₂_same.mpr fun x _ => by omega
  cases hset : s.settings with
  | none =>
    simp only [getCurrentBatchToken, hset]
    exact hrefl s.tokens
  | some st =>
    simp only [getCurrentBatchToken, hset]
    by_cases hact : (s.tokens.filter fun t => t.isActive).length = 0
    · rw [if_pos hact]
      exact hrefl s.tokens
    · rw [if_neg hact]
      by_cases hav : (filterCooldown now
          (s.tokens.filter fun t => t.isActive) s).1.length = 0
      · rw [if_pos hav]
        rw [(filterCooldown_frame now _ s).1]
        exact hrefl s.tokens
      · rw [if_neg hav]
        cases hget : (filterCooldown now
            (s.tokens.filter fun t => t.isActive) s).1.get?
            (st.lastUsedTokenIndex % (filterCooldown now
              (s.tokens.filter fun t => t.isActive) s).1.length) with
        | none =>
          dsimp only
          rw [(filterCooldown_frame now _ s).1]
          exact hrefl s.tokens
        | some slot =>
          dsimp only
          cases hfindc : findTok (filterCooldown now
              (s.tokens.filter fun t => t.isActive) s).2.tokens slot.id with
          | none =>
            dsimp only
            rw [(filterCooldown_frame now _ s).1]
            exact hrefl s.tokens
          | some curTok =>
            dsimp only
            by_cases hfull : BATCH_SIZE ≤ curTok.currentBatchCount
            · rw [if_pos hfull]
              cases hget2 : (filterCooldown now
                  (s.tokens.filter fun t => t.isActive) s).1.get?
                  ((st.lastUsedTokenIndex + 1) % (filterCooldown now
                    (s.tokens.filter fun t => t.isActive) s).1.length) with
              | none =>
                dsimp only
                rw [(filterCooldown_frame now _ s).1]
                exact hrefl s.tokens
              | some nxtSlot =>
                dsimp only
                cases hfindn : findTok (updateTok (filterCooldown now
                    (s.tokens.filter fun t => t.isActive) s).2.tokens
                    curTok.id fun t => { t with currentBatchCount := 0 })
                    nxtSlot.id with
                | none =>
                  dsimp only
                  rw [(filterCooldown_frame now _ s).1]
                  simp only [updateTok]
                  refine forall₂_map_self _ ?_ s.tokens
                  intro x
                  by_cases hx : x.id = curTok.id
                  · rw [if_pos hx]
                    try dsimp only
                    omega
                  · rw [if_neg hx]
                    omega
                | some nxtTok =>
                  dsimp only
                  rw [(filterCooldown_frame now _ s).1]
                  simp only [updateTok, List.map_map]
                  refine forall₂_map_self _ ?_ s.tokens
                  intro x
                  simp only [Function.comp]
                  by_cases hx : x.id = curTok.id
                  · rw [if_pos hx]
                    by_cases hx2 : ({ x with currentBatchCount := 0 }
                        : ApiToken).id = nxtSlot.id
                    · rw [if_pos hx2]
                      try dsimp only
                      omega
                    · rw [if_neg hx2]
                      try dsimp only
                      omega
                  · rw [if_neg hx]
                    by_cases hx2 : x.id = nxtSlot.id
                    · rw [if_pos hx2]
                      try dsimp only
                      try omega
                    · rw [if_neg hx2]
                      omega
            · rw [if_neg hfull]
              simp only
              rw [(filterCooldown_frame now _ s).1]
              simp only [updateTok]
              refine forall₂_map_self _ ?_ s.tokens
              intro x
              by_cases hx : x.id = curTok.id
              · rw [if_pos hx]
                try dsimp only
                try omega
              · rw [if_neg hx]
                omega

set_option maxRecDepth 16000 in
/-- C2 counterexample: after `c2Ops` (fill token 1 to 100, move the
cursor, fill token 2 to 100, dispense once more) a reachable state has
an active token at 101 > BATCH_SIZE — the rollover branch increments the
next token without checking its counter. -/
theorem c2_counterexample :
    ¬ (∀ (ids : List Nat) (ops : List PoolOp),
        BatchCountInv (runPoolOps (initPool ids) ops)) := by
  intro h
  have hviol : ∃ t ∈ (runPoolOps (initPool [1, 2]) c2Ops).tokens,
      t.isActive = true ∧ BATCH_SIZE < t.currentBatchCount := by decide
  obtain ⟨t, hmem, hact, hgt⟩ := hviol
  have := h [1, 2] c2Ops t hmem hact
  omega

/-- C2 (amended): `0 ≤ currentBatchCount` always holds, but the upper
bound `BATCH_SIZE` is not an invariant (101 is reachable); what every
pool operation guarantees is that each token's counter moves to at most
its previous value plus one — a dispense increments one counter by one
and may reset another to zero, and no other operation raises any
counter. -/
theorem c2_batch_counter_amended (s : PoolState) (op : PoolOp) :
    List.Forall₂ (fun t t2 => t2.currentBatchCount ≤ t.currentBatchCount + 1)
      s.tokens (applyPoolOp s op).tokens := by
  have hrefl : ∀ (l : List ApiToken),
      List.Forall₂ (fun t t2 => t2.currentBatchCount ≤ t.currentBatchCount + 1)
        l l :=
    fun l => List.forall₂_same.mpr fun x _ => by omega
  cases op with
  | dispense now => exact getCurrentBatchToken_counter_step now s
  | rotate now =>
    show List.Forall₂ _ s.tokens (getNextRotationToken now s).2.tokens
    rw [getNextRotationToken, scanRotation_tokens]
    exact hrefl s.tokens
  | recordErr now tokenId =>
    show List.Forall₂ _ s.tokens (recordTokenError now s tokenId).tokens
    have : (recordTokenError now s tokenId).tokens = s.tokens := by
      simp only [recordTokenError]
      split <;> rfl
    rw [this]
    exact hrefl s.tokens
  | cooldownCheck now tokenId =>
    show List.Forall₂ _ s.tokens (isTokenInCooldown now s tokenId).2.tokens
    rw [(isTokenInCooldown_frame now s tokenId).1]
    exact hrefl s.tokens
  | toggle tokenId b =>
    show List.Forall₂ _ s.tokens (updateTok s.tokens tokenId _)
    simp only [updateTok]
    refine forall₂_map_self _ ?_ s.tokens
    intro x
    by_cases hx : x.id = tokenId
    · rw [if_pos hx]
      try dsimp only
      omega
    · rw [if_neg hx]
      omega
  | setIndex idx => exact hrefl s.tokens

end VeoCore
